import Mathlib

/-!
Verification of the photo-sorter core pipeline (Go sources under
`internal/organizer`, `internal/statistics`, `internal/config` and the
EXIF extractor) against its natural-language specification.

The Go code is shallowly embedded: the filesystem is a finite association
list of paths to file metadata plus a set of directories, `time.Time` is a
pair of unix seconds and nanoseconds, statistics counters are natural
numbers, and each Go function that touches shared state becomes an
explicit state-passing Lean function.  Go standard-library helpers used by
the code (`fmt.Sprintf("%d", ·)`, `filepath.Ext/Base/Dir/Join`,
`time.Time.Format`) are modelled for the clean-path, ASCII inputs the
program manipulates.
-/

namespace PhotoSorter

/-! ## Definitions: the embedding of the Go sources -/

/-- The ASCII character of a decimal digit. -/
def digitChar (n : Nat) : Char := Char.ofNat (48 + n)

/-- Decimal digit characters of `n`, most significant first.
The first argument is structural fuel; any fuel above `n` is enough. -/
def natDecChars : Nat → Nat → List Char
  | 0, _ => []
  | fuel + 1, n => if n < 10 then [digitChar n] else natDecChars fuel (n / 10) ++ [digitChar (n % 10)]

/-- Decimal rendering of a natural number. -/
def natDec (n : Nat) : String := ⟨natDecChars (n + 1) n⟩

/-- Decimal rendering of an integer (model of Go `%d` on `int64`). -/
def intDec (i : Int) : String := if i < 0 then "-" ++ natDec i.natAbs else natDec i.natAbs

/-- Evaluate a digit string back to the number it denotes. -/
def decVal (cs : List Char) : Nat := cs.foldl (fun a c => a * 10 + (c.toNat - 48)) 0

/-- Model of Go `strings.ToLower` (ASCII range, which covers extensions). -/
def goToLower (s : String) : String := ⟨s.data.map Char.toLower⟩

/-- Model of Go `filepath.Ext`: the suffix of the final path element
starting at its last dot; empty when the final element has no dot. -/
def goExt (p : String) : String :=
  let r := p.data.reverse.takeWhile (fun c => c ≠ '/')
  let pre := r.takeWhile (fun c => c ≠ '.')
  if pre.length = r.length then "" else ⟨'.' :: pre.reverse⟩

/-- Model of Go `filepath.Base` for clean paths. -/
def goBase (p : String) : String :=
  if p = "" then "."
  else
    let r := p.data.reverse.dropWhile (fun c => c = '/')
    if r = [] then "/"
    else ⟨(r.takeWhile (fun c => c ≠ '/')).reverse⟩

/-- Model of Go `filepath.Dir` for clean paths: everything before the final
path element. -/
def goDir (p : String) : String :=
  let r := p.data.reverse
  let fin := r.takeWhile (fun c => c ≠ '/')
  if fin.length = r.length then "."
  else
    let rest := r.drop (fin.length + 1)
    if rest = [] then "/" else ⟨rest.reverse⟩

/-- Model of Go `filepath.Join` on two clean components. -/
def goJoin (a b : String) : String :=
  if a = "" then b else if b = "" then a else a ++ "/" ++ b

/-- Model of Go `strings.TrimSuffix`. -/
def goTrimSuffix (s suf : String) : String :=
  if suf.data.isSuffixOf s.data then ⟨s.data.take (s.data.length - suf.data.length)⟩ else s

/-- A Go `time.Time` value: whole unix seconds (`Unix()`) together with the
sub-second nanosecond component the real type carries. -/
structure GoTime where
  unix : Int
  nsec : Nat
  deriving DecidableEq

/-- Civil calendar date from a count of days since 1970-01-01
(standard era-based conversion, as Go's `time` package computes). -/
def civilFromDays (z0 : Int) : Int × Nat × Nat :=
  let z := z0 + 719468
  let era : Int := Int.fdiv z 146097
  let doe : Int := z - era * 146097
  let yoe : Int := Int.fdiv (doe - Int.fdiv doe 1460 + Int.fdiv doe 36524 - Int.fdiv doe 146096) 365
  let y : Int := yoe + era * 400
  let doy : Int := doe - (365 * yoe + Int.fdiv yoe 4 - Int.fdiv yoe 100)
  let mp : Int := Int.fdiv (5 * doy + 2) 153
  let d : Int := doy - Int.fdiv (153 * mp + 2) 5 + 1
  let m : Int := if mp < 10 then mp + 3 else mp - 9
  (if m ≤ 2 then y + 1 else y, m.toNat, d.toNat)

/-- Two-digit zero-padded rendering. -/
def pad2 (n : Nat) : String := if n < 10 then "0" ++ natDec n else natDec n

/-- Four-digit zero-padded rendering of a year. -/
def pad4 (y : Int) : String :=
  let core := fun (n : Nat) =>
    if n < 10 then "000" ++ natDec n
    else if n < 100 then "00" ++ natDec n
    else if n < 1000 then "0" ++ natDec n
    else natDec n
  if y < 0 then "-" ++ core y.natAbs else core y.natAbs

/-- Replace Go reference-layout tokens by the time's components.  Models the
tokens the repository's layouts use (`2006`, `01`, `02`, `15`, `04`, `05`);
all other characters are copied through. -/
def goFormatAux (y mo d h mi s : String) : List Char → List Char
  | '2' :: '0' :: '0' :: '6' :: rest => y.data ++ goFormatAux y mo d h mi s rest
  | '0' :: '1' :: rest => mo.data ++ goFormatAux y mo d h mi s rest
  | '0' :: '2' :: rest => d.data ++ goFormatAux y mo d h mi s rest
  | '1' :: '5' :: rest => h.data ++ goFormatAux y mo d h mi s rest
  | '0' :: '4' :: rest => mi.data ++ goFormatAux y mo d h mi s rest
  | '0' :: '5' :: rest => s.data ++ goFormatAux y mo d h mi s rest
  | c :: rest => c :: goFormatAux y mo d h mi s rest
  | [] => []

/-- Model of Go `Time.Format` for the layouts this program uses. -/
def goFormat (t : GoTime) (layout : String) : String :=
  let days := Int.fdiv t.unix 86400
  let ymd := civilFromDays days
  let sod := (Int.emod t.unix 86400).toNat
  ⟨goFormatAux (pad4 ymd.1) (pad2 ymd.2.1) (pad2 ymd.2.2)
    (pad2 (sod / 3600)) (pad2 (sod % 3600 / 60)) (pad2 (sod % 60)) layout.data⟩

/-- Metadata of one file: what `os.Stat` reports plus the date that EXIF
decoding (`extractWithGoExif`) would produce, `none` when the file has no
parseable EXIF date. -/
structure FileMeta where
  size : Int
  modTime : GoTime
  exifDate : Option GoTime
  deriving DecidableEq

structure World where
  files : List (String × FileMeta)
  dirs : List String
  badPaths : List String
  deriving DecidableEq

/-- First-match association-list lookup. -/
def alookup {α : Type} : List (String × α) → String → Option α
  | [], _ => none
  | (k, v) :: rest, p => if k = p then some v else alookup rest p

/-- Store a binding, shadowing any previous one (overwrite semantics of
`os.Create`/`os.Rename` and of `sync.Map.Store`). -/
def astore {α : Type} (l : List (String × α)) (k : String) (v : α) : List (String × α) :=
  (k, v) :: l

/-- Remove a binding (the source side of `os.Rename`). -/
def aremove {α : Type} (l : List (String × α)) (k : String) : List (String × α) :=
  l.filter (fun kv => kv.1 ≠ k)

/-- Model of `os.Stat` on a file path. -/
def World.statF (w : World) (p : String) : Option FileMeta := alookup w.files p

structure StatError where
  filePath : String
  operation : String
  errorMsg : String
  deriving DecidableEq

structure Stats where
  totalFilesFound : Nat := 0
  totalFilesProcessed : Nat := 0
  filesOrganized : Nat := 0
  filesMoved : Nat := 0
  filesCopied : Nat := 0
  filesSkipped : Nat := 0
  filesWithErrors : Nat := 0
  filesWithoutDates : Nat := 0
  duplicatesFound : Nat := 0
  duplicatesRenamed : Nat := 0
  duplicatesSkipped : Nat := 0
  duplicatesReplaced : Nat := 0
  directoriesCreated : Nat := 0
  thumbnailsFound : Nat := 0
  bytesProcessed : Int := 0
  averageFileSize : Int := 0
  dateFromEXIF : Nat := 0
  extractionErrors : Nat := 0
  errLog : List StatError := []
  deriving DecidableEq

def emptyStats : Stats := {}

def incrementFilesProcessed (s : Stats) : Stats :=
  { s with totalFilesProcessed := s.totalFilesProcessed + 1 }

def incrementFilesOrganized (s : Stats) : Stats :=
  { s with filesOrganized := s.filesOrganized + 1 }

def incrementFilesMoved (s : Stats) : Stats :=
  { s with filesMoved := s.filesMoved + 1 }

def incrementFilesCopied (s : Stats) : Stats :=
  { s with filesCopied := s.filesCopied + 1 }

def incrementFilesSkipped (s : Stats) : Stats :=
  { s with filesSkipped := s.filesSkipped + 1 }

def incrementFilesWithErrors (s : Stats) : Stats :=
  { s with filesWithErrors := s.filesWithErrors + 1 }

def incrementFilesWithoutDates (s : Stats) : Stats :=
  { s with filesWithoutDates := s.filesWithoutDates + 1 }

def incrementDuplicatesFound (s : Stats) : Stats :=
  { s with duplicatesFound := s.duplicatesFound + 1 }

def incrementDuplicatesRenamed (s : Stats) : Stats :=
  { s with duplicatesRenamed := s.duplicatesRenamed + 1 }

def incrementDuplicatesSkipped (s : Stats) : Stats :=
  { s with duplicatesSkipped := s.duplicatesSkipped + 1 }

def incrementDirectoriesCreated (s : Stats) : Stats :=
  { s with directoriesCreated := s.directoriesCreated + 1 }

def incrementDateFromEXIF (s : Stats) : Stats :=
  { s with dateFromEXIF := s.dateFromEXIF + 1 }

def incrementDateExtractionErrors (s : Stats) : Stats :=
  { s with extractionErrors := s.extractionErrors + 1 }

def addBytesProcessed (s : Stats) (bytes : Int) : Stats :=
  { s with bytesProcessed := s.bytesProcessed + bytes }

def addError (s : Stats) (filePath operation errorMsg : String) : Stats :=
  { s with errLog := s.errLog ++ [⟨filePath, operation, errorMsg⟩] }

/-- Model of `Statistics.Finalize`: computes the derived metrics from the
accumulated counters (the wall-clock ones are outside the embedding) and
changes no counter. -/
def finalizeStats (s : Stats) : Stats :=
  if s.totalFilesProcessed > 0 then
    { s with averageFileSize := s.bytesProcessed.tdiv (s.totalFilesProcessed : Int) }
  else s

/-- The extractor's memo table (keyed by the formatted cache-key string)
together with its `CacheStats` counters. -/
structure ExtState where
  cache : List (String × GoTime)
  hits : Nat
  misses : Nat
  totalQueries : Nat
  deriving DecidableEq

def emptyExtState : ExtState := ⟨[], 0, 0, 0⟩

/-- Model of `EXIFExtractor.SupportsFile`: the fixed supported image-extension set. -/
def supportedImageExts : List String :=
  [".jpg", ".jpeg", ".png", ".tiff", ".tif", ".cr2", ".nef", ".arw", ".dng", ".raw"]

def SupportsFile (filePath : String) : Bool :=
  supportedImageExts.contains (goToLower (goExt filePath))

/-- Model of `EXIFExtractor.getCacheKey`: `fmt.Sprintf("%s:%d:%d", path, size,
modTime.Unix())`. -/
def getCacheKey (filePath : String) (size : Int) (modTime : GoTime) : String :=
  filePath ++ ":" ++ intDec size ++ ":" ++ intDec modTime.unix

/-- Model of `EXIFExtractor.ExtractDate`: stat, consult the cache, otherwise decode
EXIF (the `exifDate` field of the file's metadata) and fall back to the
modification time, storing the result. -/
def ExtractDate (w : World) (st : ExtState) (filePath : String) :
    Except String GoTime × ExtState :=
  if ¬ SupportsFile filePath then
    (.error ("file type not supported by extractor: " ++ filePath), st)
  else
    match w.statF filePath with
    | none => (.error "failed to stat file", st)
    | some info =>
      let key := getCacheKey filePath info.size info.modTime
      match alookup st.cache key with
      | some cachedDate =>
        (.ok cachedDate,
          { st with hits := st.hits + 1, totalQueries := st.totalQueries + 1 })
      | none =>
        let st1 : ExtState :=
          { st with misses := st.misses + 1, totalQueries := st.totalQueries + 1 }
        match info.exifDate with
        | some date => (.ok date, { st1 with cache := astore st1.cache key date })
        | none => (.ok info.modTime, { st1 with cache := astore st1.cache key info.modTime })

structure Config where
  sourceDirectory : String
  targetDirectory : Option String
  dateFormat : String
  supportedExtensions : List String
  videoExtensions : List String
  moveFiles : Bool
  duplicateHandling : String
  skipOrganized : Bool
  createBackups : Bool
  dryRun : Bool
  maxFilesPerRun : Int
  batchSize : Int
  workerThreads : Int
  cacheSize : Int
  logLevel : String
  deriving DecidableEq

/-- Model of `Config.GetTargetDirectory`: the target directory, defaulting to the
source directory. -/
def getTargetDirectory (c : Config) : String :=
  match c.targetDirectory with
  | some t => if t ≠ "" then t else c.sourceDirectory
  | none => c.sourceDirectory

def isImageExtension (c : Config) (ext : String) : Bool :=
  c.supportedExtensions.contains (goToLower ext)

def isVideoExtension (c : Config) (ext : String) : Bool :=
  c.videoExtensions.contains (goToLower ext)

/-- Model of `isValidPath`: the path exists and is a directory (environment/home
expansion is outside the embedding). -/
def isValidPath (w : World) (p : String) : Bool :=
  p ≠ "" && w.dirs.contains p

def normalizeExtensions (exts : List String) : List String :=
  exts.map (fun e =>
    let e := goToLower e
    if e.startsWith "." then e else "." ++ e)

/-- The probe time `time.Date(2023, 12, 25, 15, 30, 45, 0, time.UTC)` used
by `Config.Validate` to test the date-format layout. -/
def validateTestTime : GoTime := ⟨1703518245, 0⟩

def validStrategies : List String := ["rename", "skip", "overwrite"]

def validLogLevels : List String := ["debug", "info", "warn", "error"]

/-- Model of `Config.Validate`: fatal configuration checks, applying defaults as the
source does. -/
def Validate (w : World) (c : Config) : Except String Config :=
  if c.sourceDirectory = "" then .error "source_directory is required"
  else if ¬ isValidPath w c.sourceDirectory then
    .error ("source_directory does not exist or is not accessible: " ++ c.sourceDirectory)
  else if (match c.targetDirectory with
           | some t => t ≠ "" && ¬ isValidPath w t
           | none => false) then
    .error "target_directory does not exist or is not accessible"
  else
    let c := if c.dateFormat = "" then { c with dateFormat := "2006/01/02" } else c
    if goFormat validateTestTime c.dateFormat = c.dateFormat then
      .error ("invalid date format: " ++ c.dateFormat)
    else if ¬ validStrategies.contains c.duplicateHandling then
      .error ("invalid duplicate_handling strategy: " ++ c.duplicateHandling ++
        " (valid: rename, skip, overwrite)")
    else
      let c := { c with
        supportedExtensions := normalizeExtensions c.supportedExtensions,
        videoExtensions := normalizeExtensions c.videoExtensions }
      let c := if c.batchSize ≤ 0 then { c with batchSize := 100 } else c
      let c := if c.workerThreads ≤ 0 then { c with workerThreads := 4 } else c
      let c := if c.cacheSize ≤ 0 then { c with cacheSize := 1000 } else c
      if ¬ validLogLevels.contains (goToLower c.logLevel) then
        .error ("invalid log level: " ++ c.logLevel)
      else .ok c

structure FileInfo where
  path : String
  size : Int
  modTime : GoTime
  isVideo : Bool
  isImage : Bool
  extension : String
  thumbnailPath : String
  deriving DecidableEq

structure OrgState where
  world : World
  ext : ExtState
  stats : Stats
  deriving DecidableEq

/-- Model of `FileOrganizer.extractDate`: gate on the extractor's supported set,
then delegate; a delegate error increments the extraction-error counter,
success counts as an EXIF-sourced date. -/
def extractDate (s : OrgState) (f : FileInfo) : Except String GoTime × OrgState :=
  if ¬ SupportsFile f.path then
    (.error "file type not supported by extractor", s)
  else
    match ExtractDate s.world s.ext f.path with
    | (.error e, ext1) =>
      (.error e, { s with ext := ext1, stats := incrementDateExtractionErrors s.stats })
    | (.ok date, ext1) =>
      (.ok date, { s with ext := ext1, stats := incrementDateFromEXIF s.stats })

/-- Model of `FileOrganizer.generateTargetPath`:
`targetRoot / date.Format(dateFormat) / basename(path)`; never fails. -/
def generateTargetPath (c : Config) (f : FileInfo) (date : GoTime) : Except String String :=
  .ok (goJoin (goJoin (getTargetDirectory c) (goFormat date c.dateFormat)) (goBase f.path))

/-- Model of `FileOrganizer.fileExistsAtTarget`. -/
def fileExistsAtTarget (w : World) (sourcePath targetPath : String) : Bool :=
  if sourcePath = targetPath then false else (w.statF targetPath).isSome

/-- Model of `FileOrganizer.createDirectory`: create on demand, counted; idempotent
when the directory exists. -/
def createDirectory (s : OrgState) (dirPath : String) : Option String × OrgState :=
  if s.world.dirs.contains dirPath then (none, s)
  else if s.world.badPaths.contains dirPath then ("mkdir failed", s)
  else
    (none, { s with world := { s.world with dirs := dirPath :: s.world.dirs },
                    stats := incrementDirectoriesCreated s.stats })

/-- Model of `FileOrganizer.copyFile`: open source, create destination (overwrite),
copy bytes, preserve the mode. -/
def copyFile (s : OrgState) (sourcePath destPath : String) : Option String × OrgState :=
  match s.world.statF sourcePath with
  | none => ("open failed", s)
  | some meta =>
    if s.world.badPaths.contains destPath then ("create failed", s)
    else (none, { s with world := { s.world with files := astore s.world.files destPath meta } })

/-- Model of `os.Rename`: the source must exist and the destination must be
writable; the destination is replaced, the source removed. -/
def renameStep (s : OrgState) (sourcePath destPath : String) : Option String × OrgState :=
  match s.world.statF sourcePath with
  | none => ("rename failed", s)
  | some meta =>
    if s.world.badPaths.contains destPath then ("rename failed", s)
    else
      (none, { s with world :=
        { s.world with files := astore (aremove s.world.files sourcePath) destPath meta } })

/-- Model of `FileOrganizer.moveFile`: optional pre-move backup copy (its failure is
only logged), then `os.Rename`. -/
def moveFile (c : Config) (s : OrgState) (sourcePath destPath : String) :
    Option String × OrgState :=
  let s := if c.createBackups then (copyFile s sourcePath (sourcePath ++ ".backup")).2 else s
  renameStep s sourcePath destPath

/-- One candidate filename `name_counter.ext` of the rename probe. -/
def uniqueCandidate (dir nameNoExt ext : String) (counter : Nat) : String :=
  goJoin dir (nameNoExt ++ "_" ++ natDec counter ++ ext)

/-- The probe loop of `generateUniqueFilename`: try `_1`, `_2`, … in order
until a path that does not exist.  The loop terminates because only
finitely many paths exist; `fuel` bounds the structural recursion and is
chosen large enough that it is never exhausted. -/
def probeUnique (w : World) (dir nameNoExt ext : String) : Nat → Nat → String
  | 0, counter => uniqueCandidate dir nameNoExt ext counter
  | fuel + 1, counter =>
    let newPath := uniqueCandidate dir nameNoExt ext counter
    if (w.statF newPath).isSome then probeUnique w dir nameNoExt ext fuel (counter + 1)
    else newPath

/-- Model of `FileOrganizer.generateUniqueFilename`. -/
def generateUniqueFilename (w : World) (basePath : String) : String :=
  let dir := goDir basePath
  let name := goBase basePath
  let ext := goExt name
  let nameNoExt := goTrimSuffix name ext
  probeUnique w dir nameNoExt ext (w.files.length + 1) 1

/-- The message of `handleDuplicate`'s default branch. -/
def unknownStrategyMsg (strategy : String) : String :=
  "unknown duplicate handling strategy: " ++ strategy

/-- Model of `FileOrganizer.handleDuplicate`. -/
def handleDuplicate (c : Config) (s0 : OrgState) (f : FileInfo) (targetPath : String) :
    Option String × OrgState :=
  let s := { s0 with stats := incrementDuplicatesFound s0.stats }
  if c.duplicateHandling = "skip" then
    (none, { s with stats := incrementFilesSkipped (incrementDuplicatesSkipped s.stats) })
  else if c.duplicateHandling = "overwrite" then
    if c.moveFiles then
      match moveFile c s f.path targetPath with
      | (none, s1) => (none, { s1 with stats := incrementFilesMoved s1.stats })
      | (some e, s1) => (some e, s1)
    else
      match copyFile s f.path targetPath with
      | (none, s1) => (none, { s1 with stats := incrementFilesCopied s1.stats })
      | (some e, s1) => (some e, s1)
  else if c.duplicateHandling = "rename" then
    let newTargetPath := generateUniqueFilename s.world targetPath
    if c.moveFiles then
      match moveFile c s f.path newTargetPath with
      | (none, s1) =>
        (none, { s1 with stats := incrementDuplicatesRenamed (incrementFilesMoved s1.stats) })
      | (some e, s1) => (some e, s1)
    else
      match copyFile s f.path newTargetPath with
      | (none, s1) =>
        (none, { s1 with stats := incrementDuplicatesRenamed (incrementFilesCopied s1.stats) })
      | (some e, s1) => (some e, s1)
  else (some (unknownStrategyMsg c.duplicateHandling), s)

/-- Model of `FileOrganizer.processThumbnail`: place the paired `.thm` next to the
video's destination; a failure is only recorded in the error log. -/
def processThumbnail (c : Config) (s : OrgState) (f : FileInfo) (videoTargetPath : String) :
    OrgState :=
  if f.thumbnailPath = "" then s
  else
    let videoDir := goDir videoTargetPath
    let videoName := goBase videoTargetPath
    let videoExt := goExt videoName
    let thmName := goTrimSuffix videoName videoExt ++ ".thm"
    let thmTargetPath := goJoin videoDir thmName
    let result :=
      if c.moveFiles then moveFile c s f.thumbnailPath thmTargetPath
      else copyFile s f.thumbnailPath thmTargetPath
    match result with
    | (some e, s1) => { s1 with stats := addError s1.stats f.thumbnailPath "thumbnail_processing" e }
    | (none, s1) => s1

/-- The tail of `processFile` after a successful (or dry-run logged)
terminal action: thumbnail placement, then the organized counters. -/
def processFileTail (c : Config) (s : OrgState) (f : FileInfo) (targetPath : String) :
    OrgState :=
  let s := if f.thumbnailPath ≠ "" then processThumbnail c s f targetPath else s
  { s with stats := addBytesProcessed (incrementFilesOrganized s.stats) f.size }

/-- Model of `FileOrganizer.processFile`: the per-file live pipeline.  Every failure
is recorded in the statistics and the function returns normally. -/
def processFile (c : Config) (s0 : OrgState) (f : FileInfo) : OrgState :=
  let s := { s0 with stats := incrementFilesProcessed s0.stats }
  match extractDate s f with
  | (.error e, s1) =>
    { s1 with stats := addError (incrementFilesWithoutDates s1.stats) f.path "date_extraction" e }
  | (.ok date, s1) =>
    match generateTargetPath c f date with
    | .error e =>
      { s1 with stats := addError (incrementFilesWithErrors s1.stats) f.path "path_generation" e }
    | .ok targetPath =>
      if fileExistsAtTarget s1.world f.path targetPath then
        match handleDuplicate c s1 f targetPath with
        | (some e, s2) =>
          { s2 with stats := addError (incrementFilesWithErrors s2.stats) f.path "duplicate_handling" e }
        | (none, s2) => s2
      else
        match createDirectory s1 (goDir targetPath) with
        | (some e, s2) =>
          { s2 with stats := addError (incrementFilesWithErrors s2.stats) f.path "directory_creation" e }
        | (none, s2) =>
          if c.dryRun then processFileTail c s2 f targetPath
          else if c.moveFiles then
            match moveFile c s2 f.path targetPath with
            | (some e, s3) =>
              { s3 with stats := addError (incrementFilesWithErrors s3.stats) f.path "move_file" e }
            | (none, s3) =>
              processFileTail c { s3 with stats := incrementFilesMoved s3.stats } f targetPath
          else
            match copyFile s2 f.path targetPath with
            | (some e, s3) =>
              { s3 with stats := addError (incrementFilesWithErrors s3.stats) f.path "copy_file" e }
            | (none, s3) =>
              processFileTail c { s3 with stats := incrementFilesCopied s3.stats } f targetPath

/-- Model of `FileOrganizer.processFiles`: the worker pool drains the whole queue
(embedded as a fold — the counter updates of distinct workers commute),
finalizes the statistics once after the join barrier, and returns no
error. -/
def processFiles (c : Config) (s : OrgState) (files : List FileInfo) :
    Except String OrgState :=
  let s1 := files.foldl (processFile c) s
  .ok { s1 with stats := finalizeStats s1.stats }

/-- Model of `FileOrganizer.processDryRunFile`: the per-file simulation pipeline —
identical decisions, log-only terminal action. -/
def processDryRunFile (c : Config) (s0 : OrgState) (f : FileInfo) : OrgState :=
  let s := { s0 with stats := incrementFilesProcessed s0.stats }
  match extractDate s f with
  | (.error _, s1) => { s1 with stats := incrementFilesWithoutDates s1.stats }
  | (.ok date, s1) =>
    match generateTargetPath c f date with
    | .error _ => { s1 with stats := incrementFilesWithErrors s1.stats }
    | .ok targetPath =>
      if fileExistsAtTarget s1.world f.path targetPath then
        { s1 with stats := incrementDuplicatesFound s1.stats }
      else
        { s1 with stats := incrementFilesOrganized s1.stats }

/-- Model of `FileOrganizer.dryRunProcess`. -/
def dryRunProcess (c : Config) (s : OrgState) (files : List FileInfo) :
    Except String OrgState :=
  let s1 := files.foldl (processDryRunFile c) s
  .ok { s1 with stats := finalizeStats s1.stats }

/-- Model of `FileOrganizer.OrganizeFiles` downstream of discovery: record the
found-file total and run the live or the simulated pipeline. -/
def organizeFiles (c : Config) (s : OrgState) (files : List FileInfo) :
    Except String OrgState :=
  if files.length = 0 then .ok s
  else
    let s1 := { s with stats := { s.stats with totalFilesFound := files.length } }
    if c.dryRun then dryRunProcess c s1 files else processFiles c s1 files

/-- The four per-file outcome counters of the totals invariant. -/
def sumFour (st : Stats) : Nat :=
  st.filesOrganized + st.filesSkipped + st.filesWithErrors + st.filesWithoutDates

def c1cfg : Config := {
  sourceDirectory := "src", targetDirectory := some "t", dateFormat := "2006",
  supportedExtensions := [".jpg", ".jpeg", ".png"],
  videoExtensions := [".mp4", ".avi", ".mov", ".mpg"],
  moveFiles := true, duplicateHandling := "rename", skipOrganized := true,
  createBackups := false, dryRun := false, maxFilesPerRun := 0,
  batchSize := 100, workerThreads := 4, cacheSize := 1000, logLevel := "info" }

def c1world : World := {
  files := [("src/a.jpg", ⟨100, ⟨0, 0⟩, some ⟨0, 0⟩⟩), ("t/1970/a.jpg", ⟨5, ⟨0, 0⟩, none⟩)],
  dirs := ["src", "t", "t/1970"], badPaths := [] }

def c1file : FileInfo := ⟨"src/a.jpg", 100, ⟨0, 0⟩, false, true, ".jpg", ""⟩

/-- The placement contract exactly as the specification words it:
`targetRoot / date.Format(dateFormatPattern) / basename(file)`. -/
def planSpec (c : Config) (f : FileInfo) (date : GoTime) : String :=
  goJoin (goJoin (getTargetDirectory c) (goFormat date c.dateFormat)) (goBase f.path)

def c10cfg : Config := {
  sourceDirectory := "clips", targetDirectory := some "t", dateFormat := "2006",
  supportedExtensions := [".jpg", ".jpeg", ".png"],
  videoExtensions := [".mp4", ".avi", ".mov", ".mpg"],
  moveFiles := true, duplicateHandling := "rename", skipOrganized := true,
  createBackups := false, dryRun := false, maxFilesPerRun := 0,
  batchSize := 100, workerThreads := 4, cacheSize := 1000, logLevel := "info" }

def c10world : World := {
  files := [("clips/v.mp4", ⟨7, ⟨0, 0⟩, none⟩)],
  dirs := ["clips", "t"], badPaths := [] }

def c10file : FileInfo := ⟨"clips/v.mp4", 7, ⟨0, 0⟩, true, false, ".mp4", ""⟩

def c2world : World := {
  files := [("src/a.jpg", ⟨100, ⟨0, 0⟩, some ⟨0, 0⟩⟩),
            ("src/b.jpg", ⟨50, ⟨0, 0⟩, some ⟨0, 0⟩⟩),
            ("t/1970/a.jpg", ⟨5, ⟨0, 0⟩, none⟩),
            ("t/1970/b.jpg", ⟨6, ⟨0, 0⟩, none⟩)],
  dirs := ["src", "t", "t/1970"], badPaths := [] }

def c2badCfg : Config := {
  sourceDirectory := "src", targetDirectory := some "t", dateFormat := "2006",
  supportedExtensions := [".jpg", ".jpeg", ".png"],
  videoExtensions := [".mp4", ".avi", ".mov", ".mpg"],
  moveFiles := true, duplicateHandling := "merge", skipOrganized := true,
  createBackups := false, dryRun := false, maxFilesPerRun := 0,
  batchSize := 100, workerThreads := 4, cacheSize := 1000, logLevel := "info" }

def c2f1 : FileInfo := ⟨"src/a.jpg", 100, ⟨0, 0⟩, false, true, ".jpg", ""⟩

def c2f2 : FileInfo := ⟨"src/b.jpg", 50, ⟨0, 0⟩, false, true, ".jpg", ""⟩

def c6world : World := {
  files := [("clips/v.mp4", ⟨7, ⟨0, 0⟩, none⟩), ("pics/p.jpg", ⟨9, ⟨400, 0⟩, none⟩)],
  dirs := ["clips", "pics"], badPaths := [] }

def c6fileV : FileInfo := ⟨"clips/v.mp4", 7, ⟨0, 0⟩, true, false, ".mp4", ""⟩

def c6fileJ : FileInfo := ⟨"pics/p.jpg", 9, ⟨400, 0⟩, false, true, ".jpg", ""⟩

def c3world1 : World := {
  files := [("p/a.jpg", ⟨100, ⟨500, 0⟩, some ⟨12345, 0⟩⟩)], dirs := ["p"], badPaths := [] }

def c3world2 : World := {
  files := [("p/a.jpg", ⟨100, ⟨500, 7⟩, some ⟨999, 0⟩⟩)], dirs := ["p"], badPaths := [] }

def c3meta1 : FileMeta := ⟨100, ⟨500, 0⟩, some ⟨12345, 0⟩⟩

def c3meta2 : FileMeta := ⟨100, ⟨500, 7⟩, some ⟨999, 0⟩⟩

def c4cfg : Config := {
  sourceDirectory := "s1", targetDirectory := some "t", dateFormat := "2006",
  supportedExtensions := [".jpg", ".jpeg", ".png"],
  videoExtensions := [".mp4", ".avi", ".mov", ".mpg"],
  moveFiles := true, duplicateHandling := "rename", skipOrganized := true,
  createBackups := false, dryRun := false, maxFilesPerRun := 0,
  batchSize := 100, workerThreads := 4, cacheSize := 1000, logLevel := "info" }

def c4cfgDry : Config := { c4cfg with dryRun := true }

def c4world : World := {
  files := [("s1/a.jpg", ⟨100, ⟨0, 0⟩, some ⟨0, 0⟩⟩), ("s2/a.jpg", ⟨50, ⟨3, 0⟩, some ⟨9, 0⟩⟩)],
  dirs := ["s1", "s2", "t"], badPaths := [] }

def c4f1 : FileInfo := ⟨"s1/a.jpg", 100, ⟨0, 0⟩, false, true, ".jpg", ""⟩

def c4f2 : FileInfo := ⟨"s2/a.jpg", 50, ⟨3, 0⟩, false, true, ".jpg", ""⟩

def c5world : World := {
  files := [("t/a.jpg", ⟨1, ⟨0, 0⟩, none⟩), ("t/a_1.jpg", ⟨2, ⟨0, 0⟩, none⟩)],
  dirs := ["t"], badPaths := [] }

/-! ## Theorems -/

theorem natDecChars_fuel_irrel : ∀ f g n, n < f → n < g →
    natDecChars f n = natDecChars g n := by
  intro f
  induction f with
  | zero => intro g n h; omega
  | succ f ih =>
    intro g n hf hg
    cases g with
    | zero => omega
    | succ g =>
      simp only [natDecChars]
      by_cases h10 : n < 10
      · simp [h10]
      · simp only [h10, if_false]
        have hdiv : n / 10 < n := Nat.div_lt_self (by omega) (by omega)
        rw [ih g (n / 10) (by omega) (by omega)]

theorem decVal_append_digit (cs : List Char) (c : Char) :
    decVal (cs ++ [c]) = decVal cs * 10 + (c.toNat - 48) := by
  simp [decVal, List.foldl_append]

theorem digitChar_toNat : ∀ n, n < 10 → (digitChar n).toNat = 48 + n := by decide

theorem decVal_natDecChars : ∀ f n, n < f → decVal (natDecChars f n) = n := by
  intro f
  induction f with
  | zero => intro n h; omega
  | succ f ih =>
    intro n hf
    simp only [natDecChars]
    by_cases h10 : n < 10
    · simp [h10, decVal, digitChar_toNat n h10]
    · simp only [h10, if_false]
      have hdiv : n / 10 < n := Nat.div_lt_self (by omega) (by omega)
      rw [decVal_append_digit, ih (n / 10) (by omega),
        digitChar_toNat (n % 10) (Nat.mod_lt _ (by omega))]
      omega

theorem natDec_injective : Function.Injective natDec := by
  intro a b h
  have hdata : natDecChars (a + 1) a = natDecChars (b + 1) b := congrArg String.data h
  have ha := decVal_natDecChars (a + 1) a (by omega)
  have hb := decVal_natDecChars (b + 1) b (by omega)
  rw [hdata] at ha
  omega

theorem digitChar_is_digit : ∀ n, n < 10 → 48 ≤ (digitChar n).toNat ∧ (digitChar n).toNat ≤ 57 := by
  decide

theorem natDecChars_digits : ∀ f n c, c ∈ natDecChars f n →
    48 ≤ c.toNat ∧ c.toNat ≤ 57 := by
  intro f
  induction f with
  | zero => intro n c h; simp [natDecChars] at h
  | succ f ih =>
    intro n c h
    simp only [natDecChars] at h
    by_cases h10 : n < 10
    · simp [h10] at h
      subst h
      exact digitChar_is_digit n h10
    · simp [h10] at h
      rcases h with h | h
      · exact ih _ _ h
      · subst h
        exact digitChar_is_digit (n % 10) (Nat.mod_lt _ (by omega))

theorem natDec_ne_nil (n : Nat) : (natDec n).data ≠ [] := by
  show natDecChars (n + 1) n ≠ []
  simp only [natDecChars]
  by_cases h10 : n < 10 <;> simp [h10]

theorem natDec_no_colon (n : Nat) (c : Char) (h : c ∈ (natDec n).data) : c ≠ ':' := by
  have := natDecChars_digits (n + 1) n c h
  intro hc
  subst hc
  simp at this

theorem intDec_data_digits_or_neg (i : Int) (c : Char) (h : c ∈ (intDec i).data) :
    c = '-' ∨ (48 ≤ c.toNat ∧ c.toNat ≤ 57) := by
  unfold intDec at h
  by_cases hneg : i < 0
  · simp only [hneg, if_true] at h
    rw [String.data_append] at h
    rcases List.mem_append.mp h with h | h
    · left
      simpa using h
    · right
      exact natDecChars_digits _ _ c h
  · simp only [hneg, if_false] at h
    right
    exact natDecChars_digits _ _ c h

theorem intDec_no_colon (i : Int) (c : Char) (h : c ∈ (intDec i).data) : c ≠ ':' := by
  rcases intDec_data_digits_or_neg i c h with h | h
  · subst h; decide
  · intro hc; subst hc; simp at h

theorem intDec_injective : Function.Injective intDec := by
  intro a b h
  unfold intDec at h
  by_cases ha : a < 0 <;> by_cases hb : b < 0
  · simp only [ha, hb, if_true] at h
    have : natDec a.natAbs = natDec b.natAbs := by
      have hd := congrArg String.data h
      simp only [String.data_append] at hd
      have := List.append_cancel_left hd
      exact congrArg String.mk this
    have := natDec_injective this
    omega
  · simp only [ha, hb, if_true, if_false] at h
    exfalso
    have hd := congrArg String.data h
    simp only [String.data_append] at hd
    have hmem : '-' ∈ (natDec b.natAbs).data := by
      rw [← hd]
      simp
    have := natDecChars_digits _ _ _ hmem
    simp at this
  · simp only [ha, hb, if_true, if_false] at h
    exfalso
    have hd := congrArg String.data h
    simp only [String.data_append] at hd
    have hmem : '-' ∈ (natDec a.natAbs).data := by
      rw [hd]
      simp
    have := natDecChars_digits _ _ _ hmem
    simp at this
  · simp only [ha, hb, if_false] at h
    have := natDec_injective h
    omega

theorem string_eq_of_data {s t : String} (h : s.data = t.data) : s = t := by
  cases s
  cases t
  exact congrArg String.mk h

theorem alookup_eq_none {α : Type} (l : List (String × α)) (k : String) :
    alookup l k = none ↔ k ∉ l.map Prod.fst := by
  induction l with
  | nil => simp [alookup]
  | cons kv rest ih =>
    simp only [alookup, List.map_cons, List.mem_cons]
    by_cases h : kv.1 = k
    · simp [h]
    · simp only [h, if_false, ih]
      constructor
      · intro hn
        intro hor
        rcases hor with hor | hor
        · exact h hor.symm
        · exact hn hor
      · intro hn hm
        exact hn (Or.inr hm)

theorem alookup_isSome_mem {α : Type} {l : List (String × α)} {k : String}
    (h : (alookup l k).isSome) : k ∈ l.map Prod.fst := by
  by_contra hmem
  rw [← alookup_eq_none] at hmem
  rw [hmem] at h
  simp at h

/-- Splitting a colon-separated concatenation: if the leading segments are
colon-free, the decomposition is unique. -/
theorem colon_sep : ∀ (a b x y : List Char), (∀ c ∈ a, c ≠ ':') → (∀ c ∈ b, c ≠ ':') →
    a ++ ':' :: x = b ++ ':' :: y → a = b ∧ x = y := by
  intro a
  induction a with
  | nil =>
    intro b x y _ hb h
    cases b with
    | nil => simpa using h
    | cons d bt =>
      simp only [List.nil_append, List.cons_append, List.cons.injEq] at h
      exact absurd h.1.symm (hb d (by simp))
  | cons c at1 ih =>
    intro b x y ha hb h
    cases b with
    | nil =>
      simp only [List.nil_append, List.cons_append, List.cons.injEq] at h
      exact absurd h.1 (ha c (by simp))
    | cons d bt =>
      simp only [List.cons_append, List.cons.injEq] at h
      have hrest := ih bt x y (fun e he => ha e (by simp [he])) (fun e he => hb e (by simp [he])) h.2
      exact ⟨by rw [h.1, hrest.1], hrest.2⟩

/-- For a fixed path the cache key determines the size and the
unix-seconds value of the modification time: the decimal renderings are
colon-free, so the two separators can be located unambiguously. -/
theorem getCacheKey_inj (p : String) {s1 s2 : Int} {t1 t2 : GoTime}
    (h : getCacheKey p s1 t1 = getCacheKey p s2 t2) : s1 = s2 ∧ t1.unix = t2.unix := by
  have hd := congrArg String.data h
  have hc : (":" : String).data = [':'] := rfl
  simp only [getCacheKey, String.data_append, hc, List.append_assoc,
    List.singleton_append] at hd
  have hinner := List.append_cancel_left hd
  have htail : (intDec s1).data ++ ':' :: (intDec t1.unix).data
      = (intDec s2).data ++ ':' :: (intDec t2.unix).data := by
    injection hinner
  have hsep := colon_sep _ _ _ _
    (fun c hcm => intDec_no_colon s1 c hcm)
    (fun c hcm => intDec_no_colon s2 c hcm) htail
  constructor
  · exact intDec_injective (string_eq_of_data hsep.1)
  · exact intDec_injective (string_eq_of_data hsep.2)

theorem copyFile_stats (s : OrgState) (a b : String) :
    ((copyFile s a b).2).stats = s.stats := by
  unfold copyFile
  split
  · rfl
  · split <;> rfl

theorem renameStep_stats (s : OrgState) (a b : String) :
    ((renameStep s a b).2).stats = s.stats := by
  unfold renameStep
  split
  · rfl
  · split <;> rfl

theorem moveFile_stats (c : Config) (s : OrgState) (a b : String) :
    ((moveFile c s a b).2).stats = s.stats := by
  unfold moveFile
  cases hcb : c.createBackups
  · simp [renameStep_stats]
  · simp [renameStep_stats, copyFile_stats]

theorem createDirectory_stats_cases (s : OrgState) (d : String) :
    ((createDirectory s d).2).stats = s.stats ∨
      ((createDirectory s d).2).stats = incrementDirectoriesCreated s.stats := by
  unfold createDirectory
  split
  · exact Or.inl rfl
  · split
    · exact Or.inl rfl
    · exact Or.inr rfl

theorem extractDate_world (s : OrgState) (f : FileInfo) :
    ((extractDate s f).2).world = s.world := by
  unfold extractDate
  by_cases h : SupportsFile f.path
  · simp only [h, not_true, if_neg, Bool.not_eq_true]
    rcases hE : ExtractDate s.world s.ext f.path with ⟨r, ext1⟩
    cases r <;> simp [hE]
  · simp [h]

theorem processThumbnail_stats_cases (c : Config) (s : OrgState) (f : FileInfo) (t : String) :
    (processThumbnail c s f t).stats = s.stats ∨
      ∃ e, (processThumbnail c s f t).stats
        = addError s.stats f.thumbnailPath "thumbnail_processing" e := by
  unfold processThumbnail
  by_cases ht : f.thumbnailPath = ""
  · simp [ht]
  · simp only [ht, if_false, reduceIte]
    cases hm : c.moveFiles
    · simp only [Bool.false_eq_true, if_false, reduceIte]
      rcases hR : copyFile s f.thumbnailPath
          (goJoin (goDir t) (goTrimSuffix (goBase t) (goExt (goBase t)) ++ ".thm"))
        with ⟨err, s1⟩
      have hs1 : s1.stats = s.stats := by
        have := copyFile_stats s f.thumbnailPath
          (goJoin (goDir t) (goTrimSuffix (goBase t) (goExt (goBase t)) ++ ".thm"))
        rw [hR] at this
        exact this
      cases err with
      | none =>
        simp only [hR]
        exact Or.inl hs1
      | some e =>
        simp only [hR]
        refine Or.inr ⟨e, ?_⟩
        simp [addError, hs1]
    · simp only [reduceIte]
      rcases hR : moveFile c s f.thumbnailPath
          (goJoin (goDir t) (goTrimSuffix (goBase t) (goExt (goBase t)) ++ ".thm"))
        with ⟨err, s1⟩
      have hs1 : s1.stats = s.stats := by
        have := moveFile_stats c s f.thumbnailPath
          (goJoin (goDir t) (goTrimSuffix (goBase t) (goExt (goBase t)) ++ ".thm"))
        rw [hR] at this
        exact this
      cases err with
      | none =>
        simp only [hR]
        exact Or.inl hs1
      | some e =>
        simp only [hR]
        refine Or.inr ⟨e, ?_⟩
        simp [addError, hs1]

theorem extractDate_stats_cases (s : OrgState) (f : FileInfo) :
    ((extractDate s f).2).stats = s.stats ∨
      ((extractDate s f).2).stats = incrementDateExtractionErrors s.stats ∨
      ((extractDate s f).2).stats = incrementDateFromEXIF s.stats := by
  unfold extractDate
  by_cases h : SupportsFile f.path
  · simp only [h]
    rcases hE : ExtractDate s.world s.ext f.path with ⟨r, ext1⟩
    cases r <;> simp [hE]
  · simp [h]

theorem handleDuplicate_effects (c : Config) (s : OrgState) (f : FileInfo) (t : String) :
    ((handleDuplicate c s f t).2).stats.totalFilesProcessed = s.stats.totalFilesProcessed ∧
    ((handleDuplicate c s f t).2).stats.totalFilesFound = s.stats.totalFilesFound ∧
    ((handleDuplicate c s f t).2).stats.filesOrganized = s.stats.filesOrganized ∧
    ((handleDuplicate c s f t).2).stats.duplicatesFound = s.stats.duplicatesFound + 1 ∧
    sumFour ((handleDuplicate c s f t).2).stats ≤ sumFour s.stats + 1 ∧
    (∀ e, (handleDuplicate c s f t).1 = some e →
      sumFour ((handleDuplicate c s f t).2).stats = sumFour s.stats) := by
  unfold handleDuplicate
  dsimp only
  split
  · simp [incrementDuplicatesFound, incrementDuplicatesSkipped, incrementFilesSkipped, sumFour]
    omega
  · split
    · split
      · split
        · rename_i s1 heq
          have h5 := congrArg (fun p => (Prod.snd p).stats) heq
          dsimp only at h5
          rw [moveFile_stats] at h5
          simp [← h5, incrementDuplicatesFound, incrementFilesMoved, sumFour]
        · rename_i e s1 heq
          have h5 := congrArg (fun p => (Prod.snd p).stats) heq
          dsimp only at h5
          rw [moveFile_stats] at h5
          simp [← h5, incrementDuplicatesFound, sumFour]
      · split
        · rename_i s1 heq
          have h5 := congrArg (fun p => (Prod.snd p).stats) heq
          dsimp only at h5
          rw [copyFile_stats] at h5
          simp [← h5, incrementDuplicatesFound, incrementFilesCopied, sumFour]
        · rename_i e s1 heq
          have h5 := congrArg (fun p => (Prod.snd p).stats) heq
          dsimp only at h5
          rw [copyFile_stats] at h5
          simp [← h5, incrementDuplicatesFound, sumFour]
    · split
      · split
        · split
          · rename_i s1 heq
            have h5 := congrArg (fun p => (Prod.snd p).stats) heq
            dsimp only at h5
            rw [moveFile_stats] at h5
            simp [← h5, incrementDuplicatesFound, incrementFilesMoved,
              incrementDuplicatesRenamed, sumFour]
          · rename_i e s1 heq
            have h5 := congrArg (fun p => (Prod.snd p).stats) heq
            dsimp only at h5
            rw [moveFile_stats] at h5
            simp [← h5, incrementDuplicatesFound, sumFour]
        · split
          · rename_i s1 heq
            have h5 := congrArg (fun p => (Prod.snd p).stats) heq
            dsimp only at h5
            rw [copyFile_stats] at h5
            simp [← h5, incrementDuplicatesFound, incrementFilesCopied,
              incrementDuplicatesRenamed, sumFour]
          · rename_i e s1 heq
            have h5 := congrArg (fun p => (Prod.snd p).stats) heq
            dsimp only at h5
            rw [copyFile_stats] at h5
            simp [← h5, incrementDuplicatesFound, sumFour]
      · simp [incrementDuplicatesFound, sumFour]

theorem processFileTail_effects (c : Config) (s : OrgState) (f : FileInfo) (t : String) :
    (processFileTail c s f t).stats.totalFilesProcessed = s.stats.totalFilesProcessed ∧
    (processFileTail c s f t).stats.totalFilesFound = s.stats.totalFilesFound ∧
    sumFour (processFileTail c s f t).stats = sumFour s.stats + 1 := by
  unfold processFileTail
  dsimp only
  split
  · rcases processThumbnail_stats_cases c s f t with h | ⟨e, h⟩ <;>
      simp [h, addError, incrementFilesOrganized, addBytesProcessed, sumFour] <;> omega
  · simp [incrementFilesOrganized, addBytesProcessed, sumFour]
    omega

theorem processFile_stage1 (s : OrgState) (f : FileInfo) (r : Except String GoTime × OrgState)
    (heq : extractDate { s with stats := incrementFilesProcessed s.stats } f = r) :
    (r.2).stats.totalFilesProcessed = s.stats.totalFilesProcessed + 1 ∧
    (r.2).stats.totalFilesFound = s.stats.totalFilesFound ∧
    sumFour (r.2).stats = sumFour s.stats := by
  have hc := extractDate_stats_cases { s with stats := incrementFilesProcessed s.stats } f
  rw [heq] at hc
  rcases hc with hc | hc | hc <;>
    simp [hc, incrementFilesProcessed, incrementDateExtractionErrors,
      incrementDateFromEXIF, sumFour]

theorem processFile_effects (c : Config) (s : OrgState) (f : FileInfo) :
    (processFile c s f).stats.totalFilesProcessed = s.stats.totalFilesProcessed + 1 ∧
    (processFile c s f).stats.totalFilesFound = s.stats.totalFilesFound ∧
    sumFour (processFile c s f).stats ≤ sumFour s.stats + 1 := by
  unfold processFile
  dsimp only
  split
  · rename_i e s2 heq
    have h1 := processFile_stage1 s f _ heq
    dsimp only at h1
    simp [addError, incrementFilesWithoutDates, sumFour, h1.1, h1.2.1]
    have h9 := h1.2.2
    simp only [sumFour] at h9
    omega
  · rename_i date s2 heq
    have h1 := processFile_stage1 s f _ heq
    dsimp only at h1
    split
    · rename_i e heq2
      simp [addError, incrementFilesWithErrors, sumFour, h1.1, h1.2.1]
      have h9 := h1.2.2
      simp only [sumFour] at h9
      omega
    · rename_i targetPath heq2
      split
      · split
        · rename_i e s3 heq3
          have hd := handleDuplicate_effects c s2 f targetPath
          rw [heq3] at hd
          dsimp only at hd
          have h4 := hd.2.2.2.2.2 e rfl
          simp [addError, incrementFilesWithErrors, sumFour, hd.1, hd.2.1, h1.1, h1.2.1]
          have h9 := h1.2.2
          simp only [sumFour] at h4 h9
          omega
        · rename_i s3 heq3
          have hd := handleDuplicate_effects c s2 f targetPath
          rw [heq3] at hd
          dsimp only at hd
          refine ⟨by rw [hd.1, h1.1], by rw [hd.2.1, h1.2.1], ?_⟩
          have := hd.2.2.2.2.1
          omega
      · split
        · rename_i e s3 heq3
          have hcd := createDirectory_stats_cases s2 (goDir targetPath)
          rw [heq3] at hcd
          dsimp only at hcd
          have h9 := h1.2.2
          simp only [sumFour] at h9
          rcases hcd with hcd | hcd <;>
            simp [hcd, addError, incrementFilesWithErrors, incrementDirectoriesCreated,
              sumFour, h1.1, h1.2.1] <;> omega
        · rename_i s3 heq3
          have hcd := createDirectory_stats_cases s2 (goDir targetPath)
          rw [heq3] at hcd
          dsimp only at hcd
          have h3 : s3.stats.totalFilesProcessed = s.stats.totalFilesProcessed + 1 ∧
              s3.stats.totalFilesFound = s.stats.totalFilesFound ∧
              sumFour s3.stats = sumFour s.stats := by
            have h9 := h1.2.2
            simp only [sumFour] at h9
            rcases hcd with hcd | hcd <;>
              simp [hcd, incrementDirectoriesCreated, sumFour, h1.1, h1.2.1] <;> omega
          split
          · have ht := processFileTail_effects c s3 f targetPath
            refine ⟨by rw [ht.1, h3.1], by rw [ht.2.1, h3.2.1], ?_⟩
            have := ht.2.2
            omega
          · split
            · split
              · rename_i e s4 heq4
                have hm := moveFile_stats c s3 f.path targetPath
                rw [heq4] at hm
                dsimp only at hm
                simp [addError, incrementFilesWithErrors, sumFour, hm, h3.1, h3.2.1]
                have h9 := h3.2.2
                simp only [sumFour] at h9
                omega
              · rename_i s4 heq4
                have hm := moveFile_stats c s3 f.path targetPath
                rw [heq4] at hm
                dsimp only at hm
                have ht := processFileTail_effects c
                  { s4 with stats := incrementFilesMoved s4.stats } f targetPath
                refine ⟨?_, ?_, ?_⟩
                · rw [ht.1]
                  simp [incrementFilesMoved, hm, h3.1]
                · rw [ht.2.1]
                  simp [incrementFilesMoved, hm, h3.2.1]
                · have h6 := ht.2.2
                  have h7 : sumFour { s4 with stats := incrementFilesMoved s4.stats }.stats
                      = sumFour s.stats := by
                    simp [incrementFilesMoved, sumFour, hm]
                    have := h3.2.2
                    simp [sumFour] at this
                    omega
                  omega
            · split
              · rename_i e s4 heq4
                have hm := copyFile_stats s3 f.path targetPath
                rw [heq4] at hm
                dsimp only at hm
                simp [addError, incrementFilesWithErrors, sumFour, hm, h3.1, h3.2.1]
                have h9 := h3.2.2
                simp only [sumFour] at h9
                omega
              · rename_i s4 heq4
                have hm := copyFile_stats s3 f.path targetPath
                rw [heq4] at hm
                dsimp only at hm
                have ht := processFileTail_effects c
                  { s4 with stats := incrementFilesCopied s4.stats } f targetPath
                refine ⟨?_, ?_, ?_⟩
                · rw [ht.1]
                  simp [incrementFilesCopied, hm, h3.1]
                · rw [ht.2.1]
                  simp [incrementFilesCopied, hm, h3.2.1]
                · have h6 := ht.2.2
                  have h7 : sumFour { s4 with stats := incrementFilesCopied s4.stats }.stats
                      = sumFour s.stats := by
                    simp [incrementFilesCopied, sumFour, hm]
                    have := h3.2.2
                    simp [sumFour] at this
                    omega
                  omega

theorem finalizeStats_fields (st : Stats) :
    (finalizeStats st).totalFilesFound = st.totalFilesFound ∧
    (finalizeStats st).totalFilesProcessed = st.totalFilesProcessed ∧
    (finalizeStats st).filesOrganized = st.filesOrganized ∧
    (finalizeStats st).filesSkipped = st.filesSkipped ∧
    (finalizeStats st).filesWithErrors = st.filesWithErrors ∧
    (finalizeStats st).filesWithoutDates = st.filesWithoutDates ∧
    (finalizeStats st).duplicatesFound = st.duplicatesFound ∧
    (finalizeStats st).errLog = st.errLog := by
  unfold finalizeStats
  split <;> simp

theorem processDryRunFile_effects (c : Config) (s : OrgState) (f : FileInfo) :
    (processDryRunFile c s f).stats.totalFilesProcessed = s.stats.totalFilesProcessed + 1 ∧
    (processDryRunFile c s f).stats.totalFilesFound = s.stats.totalFilesFound ∧
    sumFour (processDryRunFile c s f).stats ≤ sumFour s.stats + 1 ∧
    (processDryRunFile c s f).world = s.world := by
  unfold processDryRunFile
  dsimp only
  split
  · rename_i e s2 heq
    have h1 := processFile_stage1 s f _ heq
    dsimp only at h1
    have hw := congrArg (fun p => (Prod.snd p).world) heq
    dsimp only at hw
    rw [extractDate_world] at hw
    have h9 := h1.2.2
    simp only [sumFour] at h9
    simp [incrementFilesWithoutDates, sumFour, h1.1, h1.2.1, ← hw]
    omega
  · rename_i date s2 heq
    have h1 := processFile_stage1 s f _ heq
    dsimp only at h1
    have hw := congrArg (fun p => (Prod.snd p).world) heq
    dsimp only at hw
    rw [extractDate_world] at hw
    have h9 := h1.2.2
    simp only [sumFour] at h9
    split
    · rename_i e heq2
      simp [incrementFilesWithErrors, sumFour, h1.1, h1.2.1, ← hw]
      omega
    · rename_i targetPath heq2
      split
      · simp [incrementDuplicatesFound, sumFour, h1.1, h1.2.1, ← hw]
        omega
      · simp [incrementFilesOrganized, sumFour, h1.1, h1.2.1, ← hw]
        omega

theorem foldl_processFile_effects (c : Config) (files : List FileInfo) (s : OrgState) :
    (files.foldl (processFile c) s).stats.totalFilesProcessed
      = s.stats.totalFilesProcessed + files.length ∧
    (files.foldl (processFile c) s).stats.totalFilesFound = s.stats.totalFilesFound ∧
    sumFour (files.foldl (processFile c) s).stats ≤ sumFour s.stats + files.length := by
  induction files generalizing s with
  | nil => simp
  | cons f rest ih =>
    simp only [List.foldl_cons, List.length_cons]
    have h1 := processFile_effects c s f
    have h2 := ih (processFile c s f)
    refine ⟨by omega, by rw [h2.2.1, h1.2.1], by omega⟩

theorem foldl_processDryRunFile_effects (c : Config) (files : List FileInfo) (s : OrgState) :
    (files.foldl (processDryRunFile c) s).stats.totalFilesProcessed
      = s.stats.totalFilesProcessed + files.length ∧
    (files.foldl (processDryRunFile c) s).stats.totalFilesFound = s.stats.totalFilesFound ∧
    sumFour (files.foldl (processDryRunFile c) s).stats ≤ sumFour s.stats + files.length ∧
    (files.foldl (processDryRunFile c) s).world = s.world := by
  induction files generalizing s with
  | nil => simp
  | cons f rest ih =>
    simp only [List.foldl_cons, List.length_cons]
    have h1 := processDryRunFile_effects c s f
    have h2 := ih (processDryRunFile c s f)
    refine ⟨by omega, by rw [h2.2.1, h1.2.1], by omega, by rw [h2.2.2.2, h1.2.2.2]⟩

theorem run_totals_live (c : Config) (s : OrgState) (files : List FileInfo) :
    ∃ s1, processFiles c s files = .ok s1 ∧
      s1.stats.totalFilesProcessed = s.stats.totalFilesProcessed + files.length ∧
      s1.stats.totalFilesFound = s.stats.totalFilesFound ∧
      sumFour s1.stats ≤ sumFour s.stats + files.length := by
  refine ⟨_, rfl, ?_, ?_, ?_⟩ <;> simp only [processFiles]
  · have hf := finalizeStats_fields ((files.foldl (processFile c) s).stats)
    rw [hf.2.1]
    exact (foldl_processFile_effects c files s).1
  · have hf := finalizeStats_fields ((files.foldl (processFile c) s).stats)
    rw [hf.1]
    exact (foldl_processFile_effects c files s).2.1
  · have hf := finalizeStats_fields ((files.foldl (processFile c) s).stats)
    have hs : sumFour (finalizeStats ((files.foldl (processFile c) s).stats))
        = sumFour ((files.foldl (processFile c) s).stats) := by
      simp [sumFour, hf.2.2.1, hf.2.2.2.1, hf.2.2.2.2.1, hf.2.2.2.2.2.1]
    rw [hs]
    exact (foldl_processFile_effects c files s).2.2

theorem run_totals_dry (c : Config) (s : OrgState) (files : List FileInfo) :
    ∃ s1, dryRunProcess c s files = .ok s1 ∧
      s1.stats.totalFilesProcessed = s.stats.totalFilesProcessed + files.length ∧
      s1.stats.totalFilesFound = s.stats.totalFilesFound ∧
      sumFour s1.stats ≤ sumFour s.stats + files.length ∧
      s1.world = s.world := by
  refine ⟨_, rfl, ?_, ?_, ?_, ?_⟩ <;> simp only [dryRunProcess]
  · have hf := finalizeStats_fields ((files.foldl (processDryRunFile c) s).stats)
    rw [hf.2.1]
    exact (foldl_processDryRunFile_effects c files s).1
  · have hf := finalizeStats_fields ((files.foldl (processDryRunFile c) s).stats)
    rw [hf.1]
    exact (foldl_processDryRunFile_effects c files s).2.1
  · have hf := finalizeStats_fields ((files.foldl (processDryRunFile c) s).stats)
    have hs : sumFour (finalizeStats ((files.foldl (processDryRunFile c) s).stats))
        = sumFour ((files.foldl (processDryRunFile c) s).stats) := by
      simp [sumFour, hf.2.2.1, hf.2.2.2.1, hf.2.2.2.2.1, hf.2.2.2.2.2.1]
    rw [hs]
    exact (foldl_processDryRunFile_effects c files s).2.2.1
  · exact (foldl_processDryRunFile_effects c files s).2.2.2

/-- C1 (amended): for every run, after finalize,
`organized + skipped + errored + withoutDates ≤ totalProcessed = totalFound`:
every file entering the pipeline contributes to `TotalFilesProcessed` and to
at most one of the four outcome counters.  (The claim's equality fails: the
duplicate `rename` and `overwrite` success branches contribute to none of
the four counters, see the counterexample.) -/
theorem c1_statistics_totals_invariant (c : Config) (w : World) (e : ExtState)
    (files : List FileInfo) :
    ∃ s1 : OrgState, organizeFiles c ⟨w, e, emptyStats⟩ files = .ok s1 ∧
      s1.stats.filesOrganized + s1.stats.filesSkipped + s1.stats.filesWithErrors +
        s1.stats.filesWithoutDates ≤ s1.stats.totalFilesFound ∧
      s1.stats.totalFilesProcessed = s1.stats.totalFilesFound := by
  unfold organizeFiles
  split
  · exact ⟨_, rfl, by simp [emptyStats], by simp [emptyStats]⟩
  · split
    · obtain ⟨s1, hrun, hproc, hfound, hsum, hw⟩ :=
        run_totals_dry c ⟨w, e, { emptyStats with totalFilesFound := files.length }⟩ files
      refine ⟨s1, hrun, ?_, ?_⟩
      · have hs4 : sumFour s1.stats ≤ files.length := by
          simpa [sumFour, emptyStats] using hsum
        simp only [sumFour] at hs4
        rw [hfound]
        simpa [emptyStats] using hs4
      · rw [hproc, hfound]
        simp [emptyStats]
    · obtain ⟨s1, hrun, hproc, hfound, hsum⟩ :=
        run_totals_live c ⟨w, e, { emptyStats with totalFilesFound := files.length }⟩ files
      refine ⟨s1, hrun, ?_, ?_⟩
      · have hs4 : sumFour s1.stats ≤ files.length := by
          simpa [sumFour, emptyStats] using hsum
        simp only [sumFour] at hs4
        rw [hfound]
        simpa [emptyStats] using hs4
      · rw [hproc, hfound]
        simp [emptyStats]

/-- C1 counterexample: a run whose single file is a duplicate resolved by
the successful `rename` branch has `totalProcessed = 1` while
`organized + skipped + errored + withoutDates = 0`, refuting the claimed
equality (the file contributes to none of the four outcome counters). -/
theorem c1_counterexample :
    (organizeFiles c1cfg ⟨c1world, emptyExtState, emptyStats⟩ [c1file]).map
      (fun s1 => (s1.stats.totalFilesProcessed,
        s1.stats.filesOrganized + s1.stats.filesSkipped + s1.stats.filesWithErrors +
          s1.stats.filesWithoutDates)) = .ok (1, 0) := rfl

/-- C7: no per-file failure aborts the run: for every configuration, state
and queued file list, the worker-pool processing function processes every
queued file (the processed counter increases by exactly the queue length),
returns no error, and finalizes the statistics exactly once, after the
whole fold. -/
theorem c7_worker_pool_never_aborts (c : Config) (s : OrgState) (files : List FileInfo) :
    ∃ s1, processFiles c s files = .ok s1 ∧
      s1.stats.totalFilesProcessed = s.stats.totalFilesProcessed + files.length ∧
      s1.stats = finalizeStats ((files.foldl (processFile c) s).stats) := by
  obtain ⟨s1, hrun, hproc, _, _⟩ := run_totals_live c s files
  refine ⟨s1, hrun, hproc, ?_⟩
  have : s1 = { files.foldl (processFile c) s with
      stats := finalizeStats ((files.foldl (processFile c) s).stats) } := by
    have h2 : Except.ok (ε := String) ({ files.foldl (processFile c) s with
        stats := finalizeStats ((files.foldl (processFile c) s).stats) } : OrgState)
        = .ok s1 := hrun
    exact (Except.ok.inj h2).symm
  rw [this]

/-- C8: a dry-run leaves the filesystem state completely unchanged — no
directory is created, no file is moved, copied or overwritten, no
thumbnail is written; only statistics (and the extractor cache) change. -/
theorem c8_dry_run_is_pure (c : Config) (s : OrgState) (files : List FileInfo) :
    ∃ s1, dryRunProcess c s files = .ok s1 ∧ s1.world = s.world := by
  obtain ⟨s1, hrun, _, _, _, hw⟩ := run_totals_dry c s files
  exact ⟨s1, hrun, hw⟩

/-- C9: the placement planner is a pure deterministic function of
(file, resolved date, configuration): it consumes no filesystem state,
never fails, and returns exactly the spec's
`targetRoot / formatted-date / basename` path. -/
theorem c9_placement_planner_pure (c : Config) (f : FileInfo) (date : GoTime) :
    generateTargetPath c f date = .ok (planSpec c f date) := rfl

/-- A lower-cased video extension is outside the extractor's supported
image set. -/
theorem video_ext_not_supported (p : String)
    (h : goToLower (goExt p) ∈ ([".mp4", ".avi", ".mov", ".mpg"] : List String)) :
    SupportsFile p = false := by
  unfold SupportsFile
  simp only [List.mem_cons, List.mem_singleton, List.not_mem_nil, or_false] at h
  rcases h with h | h | h | h <;> rw [h] <;> decide

/-- C10: a file whose extension is a video extension is never moved or
copied by the live pipeline: date extraction fails for it, the outcome is
recorded as without-dates with a `date_extraction` error, and the
filesystem state is untouched. -/
theorem c10_video_files_never_organized (c : Config) (s : OrgState) (f : FileInfo)
    (h : goToLower (goExt f.path) ∈ ([".mp4", ".avi", ".mov", ".mpg"] : List String)) :
    processFile c s f = { s with stats :=
      (addError (incrementFilesWithoutDates (incrementFilesProcessed s.stats)) f.path
        "date_extraction" "file type not supported by extractor") } := by
  have hs := video_ext_not_supported f.path h
  unfold processFile extractDate
  simp [hs, incrementFilesProcessed]

/-- C10 witness: the theorem applied to a concrete `.mp4` file. -/
theorem c10_witness :
    processFile c10cfg ⟨c10world, emptyExtState, emptyStats⟩ c10file
      = { world := c10world, ext := emptyExtState,
          stats := (addError (incrementFilesWithoutDates (incrementFilesProcessed emptyStats))
            "clips/v.mp4" "date_extraction" "file type not supported by extractor") } :=
  c10_video_files_never_organized c10cfg ⟨c10world, emptyExtState, emptyStats⟩ c10file
    (by decide)

theorem renameStep_err (s : OrgState) (a b : String) :
    ∀ e, (renameStep s a b).1 = some e → e = "rename failed" := by
  unfold renameStep
  intro e
  split
  · intro h
    exact (Option.some.inj h).symm
  · split
    · intro h
      exact (Option.some.inj h).symm
    · intro h
      simp at h

theorem moveFile_err (c : Config) (s : OrgState) (a b : String) :
    ∀ e, (moveFile c s a b).1 = some e → e = "rename failed" := by
  unfold moveFile
  intro e h
  exact renameStep_err _ a b e h

theorem copyFile_err (s : OrgState) (a b : String) :
    ∀ e, (copyFile s a b).1 = some e → e = "open failed" ∨ e = "create failed" := by
  unfold copyFile
  intro e
  split
  · intro h
    exact Or.inl (Option.some.inj h).symm
  · split
    · intro h
      exact Or.inr (Option.some.inj h).symm
    · intro h
      simp at h

theorem unknownStrategyMsg_head (str : String) :
    (unknownStrategyMsg str).data.head? = some 'u' := rfl

theorem rename_failed_ne_unknownMsg (str : String) :
    "rename failed" ≠ unknownStrategyMsg str := by
  intro h
  have h2 := congrArg (fun s => s.data.head?) h
  dsimp only at h2
  rw [unknownStrategyMsg_head] at h2
  simp at h2

theorem open_failed_ne_unknownMsg (str : String) :
    "open failed" ≠ unknownStrategyMsg str := by
  intro h
  have h2 := congrArg (fun s => s.data.head?) h
  dsimp only at h2
  rw [unknownStrategyMsg_head] at h2
  simp at h2

theorem create_failed_ne_unknownMsg (str : String) :
    "create failed" ≠ unknownStrategyMsg str := by
  intro h
  have h2 := congrArg (fun s => s.data.head?) h
  dsimp only at h2
  rw [unknownStrategyMsg_head] at h2
  simp at h2

/-- Lemma: `Validate` rejects every configuration whose duplicate-handling
strategy is unknown, whatever else the configuration contains. -/
theorem validate_err_of_bad_strategy (w : World) (c : Config)
    (h : c.duplicateHandling ∉ validStrategies) : ∃ msg, Validate w c = .error msg := by
  unfold Validate
  split
  · exact ⟨_, rfl⟩
  · split
    · exact ⟨_, rfl⟩
    · split
      · exact ⟨_, rfl⟩
      · dsimp only
        by_cases hd : c.dateFormat = ""
        · simp only [hd, reduceIte]
          cases hcont : validStrategies.contains c.duplicateHandling with
          | false =>
            rw [if_neg (by decide), if_pos (by decide)]
            exact ⟨_, rfl⟩
          | true => exact absurd (List.mem_of_elem_eq_true hcont) h
        · simp only [hd, reduceIte]
          by_cases hfmt : goFormat validateTestTime c.dateFormat = c.dateFormat
          · rw [if_pos hfmt]
            exact ⟨_, rfl⟩
          · rw [if_neg hfmt]
            cases hcont : validStrategies.contains c.duplicateHandling with
            | false =>
              rw [if_pos (by decide)]
              exact ⟨_, rfl⟩
            | true => exact absurd (List.mem_of_elem_eq_true hcont) h

/-- With a known strategy, `handleDuplicate` can fail only inside the
move/copy action, never with the unknown-strategy message. -/
theorem handleDuplicate_known_strategy_msgs (c : Config) (s : OrgState) (f : FileInfo)
    (t : String) (hval : c.duplicateHandling ∈ validStrategies) :
    ∀ e, (handleDuplicate c s f t).1 = some e → e ≠ unknownStrategyMsg c.duplicateHandling := by
  unfold handleDuplicate
  dsimp only
  intro e
  split
  · intro h
    exact Option.noConfusion h
  · split
    · split
      · split
        · intro h
          exact Option.noConfusion h
        · rename_i e2 s1 heq
          intro h
          have he : e2 = e := Option.some.inj h
          have h3 : (moveFile c { s with stats := incrementDuplicatesFound s.stats } f.path t).1
              = some e2 := by rw [heq]
          have h4 := moveFile_err c _ f.path t e2 h3
          rw [← he, h4]
          exact rename_failed_ne_unknownMsg _
      · split
        · intro h
          exact Option.noConfusion h
        · rename_i e2 s1 heq
          intro h
          have he : e2 = e := Option.some.inj h
          have h3 : (copyFile { s with stats := incrementDuplicatesFound s.stats } f.path t).1
              = some e2 := by rw [heq]
          rw [← he]
          rcases copyFile_err _ f.path t e2 h3 with h4 | h4 <;> rw [h4]
          · exact open_failed_ne_unknownMsg _
          · exact create_failed_ne_unknownMsg _
    · split
      · split
        · split
          · intro h
            exact Option.noConfusion h
          · rename_i e2 s1 heq
            intro h
            have he : e2 = e := Option.some.inj h
            have h3 : (moveFile c { s with stats := incrementDuplicatesFound s.stats } f.path
                (generateUniqueFilename
                  ({ s with stats := incrementDuplicatesFound s.stats } : OrgState).world t)).1
                = some e2 := by rw [heq]
            have h4 := moveFile_err c _ f.path _ e2 h3
            rw [← he, h4]
            exact rename_failed_ne_unknownMsg _
        · split
          · intro h
            exact Option.noConfusion h
          · rename_i e2 s1 heq
            intro h
            have he : e2 = e := Option.some.inj h
            have h3 : (copyFile { s with stats := incrementDuplicatesFound s.stats } f.path
                (generateUniqueFilename
                  ({ s with stats := incrementDuplicatesFound s.stats } : OrgState).world t)).1
                = some e2 := by rw [heq]
            rw [← he]
            rcases copyFile_err _ f.path _ e2 h3 with h4 | h4 <;> rw [h4]
            · exact open_failed_ne_unknownMsg _
            · exact create_failed_ne_unknownMsg _
      · rename_i h1 h2 h3
        exfalso
        simp only [validStrategies, List.mem_cons, List.mem_singleton, List.not_mem_nil,
          or_false] at hval
        rcases hval with h | h | h
        · exact h3 h
        · exact h1 h
        · exact h2 h

/-- C2 (amended): an unknown duplicate-handling strategy is rejected by
`Validate` as a fatal configuration error before any file is processed,
and a configuration whose strategy is known can never produce the
unknown-strategy error for any file; however the organizer itself does not
re-validate, so a run executed with an unvalidated unknown strategy does
record a per-file `duplicate_handling` error for each duplicate (see the
counterexample). -/
theorem c2_unknown_strategy_fatal (w : World) (c : Config) :
    (c.duplicateHandling ∉ validStrategies → ∃ msg, Validate w c = .error msg) ∧
    (c.duplicateHandling ∈ validStrategies → ∀ s f t e,
      (handleDuplicate c s f t).1 = some e → e ≠ unknownStrategyMsg c.duplicateHandling) := by
  constructor
  · exact validate_err_of_bad_strategy w c
  · intro hval s f t e
    exact handleDuplicate_known_strategy_msgs c s f t hval e

/-- C2 witness: the unknown strategy "merge" is a fatal `Validate` error. -/
theorem c2_witness : ∃ msg, Validate c2world c2badCfg = .error msg :=
  (c2_unknown_strategy_fatal c2world c2badCfg).1 (by decide)

/-- C2 counterexample: a run executed with the unknown strategy "merge"
records a per-file `duplicate_handling` error outcome for each of the two
duplicates encountered — the unknown strategy is reported per-file, not
only once. -/
theorem c2_counterexample :
    (processFiles c2badCfg ⟨c2world, emptyExtState, emptyStats⟩ [c2f1, c2f2]).map
      (fun s1 => s1.stats.errLog.map (fun en => (en.operation, en.errorMsg)))
      = .ok [("duplicate_handling", unknownStrategyMsg "merge"),
             ("duplicate_handling", unknownStrategyMsg "merge")] := rfl

theorem except_isOk_ok {ε α : Type} (a : α) : (Except.ok (ε := ε) a).isOk = true := rfl

theorem except_isOk_error {ε α : Type} (e : ε) :
    (Except.error (α := α) e).isOk = false := rfl

/-- C6 (amended): the date resolver returns an error exactly when the
file's extension is outside the supported image set or the file cannot be
stat'd.  A stat failure increments the extraction-error counter; an
unsupported-extension failure is returned to the caller without
incrementing it (the claim's "every such failure increments the
extraction-error counter" fails there, see the counterexample).  For every
supported, stat-able file the resolver never fails, and with no cached and
no EXIF date it returns the file's modification time. -/
theorem c6_resolver_errors (s : OrgState) (f : FileInfo) :
    ((extractDate s f).1.isOk = false ↔
      (SupportsFile f.path = false ∨ s.world.statF f.path = none)) ∧
    ((extractDate s f).2.stats.extractionErrors =
      (if SupportsFile f.path = true ∧ s.world.statF f.path = none
        then s.stats.extractionErrors + 1 else s.stats.extractionErrors)) ∧
    (∀ m : FileMeta, SupportsFile f.path = true → s.world.statF f.path = some m →
      alookup s.ext.cache (getCacheKey f.path m.size m.modTime) = none →
      m.exifDate = none → (extractDate s f).1 = .ok m.modTime) := by
  unfold extractDate ExtractDate
  by_cases hsup : SupportsFile f.path
  · simp only [hsup, not_true, Bool.not_eq_true, if_false, reduceIte]
    cases hstat : s.world.statF f.path with
    | none =>
      simp [hsup, hstat, incrementDateExtractionErrors, except_isOk_error]
    | some m =>
      cases hcache : alookup s.ext.cache (getCacheKey f.path m.size m.modTime) with
      | some d =>
        simp [hsup, hstat, hcache, incrementDateFromEXIF, except_isOk_ok]
      | none =>
        cases hexif : m.exifDate with
        | some d => simp [hsup, hstat, hcache, hexif, incrementDateFromEXIF, except_isOk_ok]
        | none => simp [hsup, hstat, hcache, hexif, incrementDateFromEXIF, except_isOk_ok]
  · simp only [Bool.not_eq_true] at hsup
    simp [hsup, except_isOk_error]

/-- C6 witness: a supported file with no EXIF date resolves to its
modification time (the claim theorem applied at a concrete input). -/
theorem c6_witness :
    (extractDate ⟨c6world, emptyExtState, emptyStats⟩ c6fileJ).1 = .ok ⟨400, 0⟩ :=
  (c6_resolver_errors ⟨c6world, emptyExtState, emptyStats⟩ c6fileJ).2.2
    ⟨9, ⟨400, 0⟩, none⟩ (by decide) (by decide) (by decide) rfl

/-- C6 counterexample: for an unsupported-extension file the resolver
fails but the extraction-error counter is NOT incremented — the organizer
returns before calling the extractor (organizer.go:294-296), so only stat
failures reach the counter. -/
theorem c6_counterexample :
    (extractDate ⟨c6world, emptyExtState, emptyStats⟩ c6fileV).1.isOk = false ∧
    (extractDate ⟨c6world, emptyExtState, emptyStats⟩ c6fileV).2.stats.extractionErrors = 0 := by
  decide

theorem ExtractDate_ok_supported {w : World} {st : ExtState} {p : String}
    {d : GoTime} {st1 : ExtState} (h : ExtractDate w st p = (.ok d, st1)) :
    SupportsFile p = true := by
  by_cases hsup : SupportsFile p
  · exact hsup
  · unfold ExtractDate at h
    simp [hsup] at h

/-- A successful `ExtractDate` leaves the returned date in the cache under
the file's current key (a hit found it there; a miss stored it). -/
theorem ExtractDate_ok_caches {w : World} {st : ExtState} {p : String} {m : FileMeta}
    {d : GoTime} {st1 : ExtState} (hstat : w.statF p = some m)
    (h : ExtractDate w st p = (.ok d, st1)) :
    alookup st1.cache (getCacheKey p m.size m.modTime) = some d := by
  have hsup := ExtractDate_ok_supported h
  unfold ExtractDate at h
  simp only [hsup, not_true, Bool.not_eq_true, reduceIte, hstat] at h
  cases hcache : alookup st.cache (getCacheKey p m.size m.modTime) with
  | some d0 =>
    rw [hcache] at h
    obtain ⟨hd, hst⟩ := Prod.mk.injEq .. ▸ h
    rw [← hst]
    rw [← Except.ok.inj hd]
    exact hcache
  | none =>
    rw [hcache] at h
    cases hexif : m.exifDate with
    | some dX =>
      rw [hexif] at h
      obtain ⟨hd, hst⟩ := Prod.mk.injEq .. ▸ h
      rw [← hst]
      simp [astore, alookup, ← Except.ok.inj hd]
    | none =>
      rw [hexif] at h
      obtain ⟨hd, hst⟩ := Prod.mk.injEq .. ▸ h
      rw [← hst]
      simp [astore, alookup, ← Except.ok.inj hd]

/-- A call whose key is cached is a hit: it returns the cached date and
increments only the hit and query counters. -/
theorem ExtractDate_hit {w : World} {st : ExtState} {p : String} {m : FileMeta}
    {d : GoTime} (hsup : SupportsFile p = true) (hstat : w.statF p = some m)
    (hcache : alookup st.cache (getCacheKey p m.size m.modTime) = some d) :
    ExtractDate w st p
      = (.ok d, { st with hits := st.hits + 1, totalQueries := st.totalQueries + 1 }) := by
  unfold ExtractDate
  simp [hsup, hstat, hcache]

/-- A call whose key is not cached is a miss. -/
theorem ExtractDate_miss {w : World} {st : ExtState} {p : String} {m : FileMeta}
    (hsup : SupportsFile p = true) (hstat : w.statF p = some m)
    (hcache : alookup st.cache (getCacheKey p m.size m.modTime) = none) :
    (ExtractDate w st p).2.misses = st.misses + 1 ∧
    (ExtractDate w st p).2.hits = st.hits := by
  unfold ExtractDate
  cases hexif : m.exifDate <;> simp [hsup, hstat, hcache, hexif]

/-- After any `ExtractDate` call the cache either is unchanged or has
exactly the current key consed in front. -/
theorem ExtractDate_cache_shape {w : World} {st : ExtState} {p : String} {m : FileMeta}
    (hstat : w.statF p = some m) :
    (ExtractDate w st p).2.cache = st.cache ∨
    ∃ dX, (ExtractDate w st p).2.cache
      = (getCacheKey p m.size m.modTime, dX) :: st.cache := by
  unfold ExtractDate
  by_cases hsup : SupportsFile p
  · cases hcache : alookup st.cache (getCacheKey p m.size m.modTime) with
    | some d0 => simp [hsup, hstat, hcache]
    | none =>
      cases hexif : m.exifDate with
      | some dX =>
        refine Or.inr ⟨dX, ?_⟩
        simp [hsup, hstat, hcache, hexif, astore]
      | none =>
        refine Or.inr ⟨m.modTime, ?_⟩
        simp [hsup, hstat, hcache, hexif, astore]
  · simp [hsup]

/-- C3 (amended): (hit) resolving an unchanged file twice — same path,
size and modification time — hits the cache on the second call: the hit
counter increments and the identical date is returned.  (miss) If the size
or the whole-second unix value of the modification time changed between
the calls (and the new key was not already cached), the second call is a
miss.  The claim's stronger "any modification-time change forces a miss"
fails: the key uses `ModTime().Unix()`, so a sub-second (nanosecond)
change still hits, returning a stale date (see the counterexample). -/
theorem c3_cache_correctness :
    (∀ (w1 w2 : World) (st0 : ExtState) (p : String) (m1 m2 : FileMeta)
      (d : GoTime) (st1 : ExtState),
      w1.statF p = some m1 → w2.statF p = some m2 →
      m1.size = m2.size → m1.modTime = m2.modTime →
      ExtractDate w1 st0 p = (.ok d, st1) →
      ExtractDate w2 st1 p
        = (.ok d, { st1 with hits := st1.hits + 1, totalQueries := st1.totalQueries + 1 })) ∧
    (∀ (w1 w2 : World) (st0 : ExtState) (p : String) (m1 m2 : FileMeta)
      (r1 : Except String GoTime) (st1 : ExtState),
      w1.statF p = some m1 → w2.statF p = some m2 →
      (m1.size ≠ m2.size ∨ m1.modTime.unix ≠ m2.modTime.unix) →
      alookup st0.cache (getCacheKey p m2.size m2.modTime) = none →
      ExtractDate w1 st0 p = (r1, st1) →
      SupportsFile p = true →
      (ExtractDate w2 st1 p).2.misses = st1.misses + 1 ∧
      (ExtractDate w2 st1 p).2.hits = st1.hits) := by
  constructor
  · intro w1 w2 st0 p m1 m2 d st1 hstat1 hstat2 hsize hmod h1
    have hsup := ExtractDate_ok_supported h1
    have hcached := ExtractDate_ok_caches hstat1 h1
    have hkey : getCacheKey p m2.size m2.modTime = getCacheKey p m1.size m1.modTime := by
      rw [hsize, hmod]
    exact ExtractDate_hit hsup hstat2 (by rw [hkey]; exact hcached)
  · intro w1 w2 st0 p m1 m2 r1 st1 hstat1 hstat2 hne hnew h1 hsup
    have hkeys : getCacheKey p m1.size m1.modTime ≠ getCacheKey p m2.size m2.modTime := by
      intro hk
      have := getCacheKey_inj p hk
      rcases hne with hne | hne
      · exact hne this.1
      · exact hne this.2
    have hshape := @ExtractDate_cache_shape w1 st0 p m1 hstat1
    rw [h1] at hshape
    have hmiss : alookup st1.cache (getCacheKey p m2.size m2.modTime) = none := by
      rcases hshape with hs | ⟨dX, hs⟩
      · rw [hs]
        exact hnew
      · rw [hs]
        unfold alookup
        rw [if_neg hkeys]
        exact hnew
    exact ExtractDate_miss hsup hstat2 hmiss

/-- C3 witness: the hit half of the theorem applied at a concrete input —
the second call over the unchanged file returns the identical date with
the hit counter incremented. -/
theorem c3_witness :
    ExtractDate c3world1 (ExtractDate c3world1 emptyExtState "p/a.jpg").2 "p/a.jpg"
      = (.ok ⟨12345, 0⟩,
         { (ExtractDate c3world1 emptyExtState "p/a.jpg").2 with hits := 1, totalQueries := 2 }) :=
  c3_cache_correctness.1 c3world1 c3world1 emptyExtState "p/a.jpg" c3meta1 c3meta1
    ⟨12345, 0⟩ (ExtractDate c3world1 emptyExtState "p/a.jpg").2 rfl rfl rfl rfl rfl

/-- C3 counterexample: mutating only the nanosecond component of the
modification time is a modification-time change, yet the second call is a
cache HIT (hit counter 1) and returns the stale first-call date `12345`
although the file's current EXIF date is `999` — refuting "for every file
whose size or modification time changes between calls, the second call is
a cache miss". -/
theorem c3_counterexample :
    c3meta1.modTime ≠ c3meta2.modTime ∧
    (ExtractDate c3world2 (ExtractDate c3world1 emptyExtState "p/a.jpg").2 "p/a.jpg").2.hits
      = 1 ∧
    (ExtractDate c3world2 (ExtractDate c3world1 emptyExtState "p/a.jpg").2 "p/a.jpg").1
      = .ok ⟨12345, 0⟩ := by
  refine ⟨by decide, by decide, rfl⟩

theorem string_append_backup_ne (a : String) : a ++ ".backup" ≠ a := by
  intro h
  have h2 := congrArg (fun s => s.data.length) h
  simp [String.data_append] at h2

theorem createDirectory_ok (s : OrgState) (d : String)
    (hb : s.world.badPaths = []) : (createDirectory s d).1 = none := by
  unfold createDirectory
  split
  · rfl
  · rw [if_neg]
    simp [hb]

theorem createDirectory_world (s : OrgState) (d : String) :
    (createDirectory s d).2.world.files = s.world.files ∧
    (createDirectory s d).2.world.badPaths = s.world.badPaths := by
  unfold createDirectory
  split
  · exact ⟨rfl, rfl⟩
  · split
    · exact ⟨rfl, rfl⟩
    · exact ⟨rfl, rfl⟩

theorem copyFile_world (s : OrgState) (a b : String) :
    (copyFile s a b).2.world.badPaths = s.world.badPaths ∧
    (copyFile s a b).2.world.dirs = s.world.dirs ∧
    (∀ p, p ≠ b → (copyFile s a b).2.world.statF p = s.world.statF p) := by
  unfold copyFile
  split
  · exact ⟨rfl, rfl, fun p _ => rfl⟩
  · split
    · exact ⟨rfl, rfl, fun p _ => rfl⟩
    · refine ⟨rfl, rfl, fun p hp => ?_⟩
      show alookup (astore s.world.files b _) p = _
      unfold astore alookup
      rw [if_neg (fun hbp => hp hbp.symm)]
      rfl

theorem copyFile_ok (s : OrgState) (a b : String)
    (hb : s.world.badPaths = []) (ha : (s.world.statF a).isSome = true) :
    (copyFile s a b).1 = none := by
  unfold copyFile
  cases hstat : s.world.statF a with
  | none => rw [hstat] at ha; simp at ha
  | some m =>
    dsimp only
    rw [if_neg]
    simp [hb]

theorem moveFile_ok (c : Config) (s : OrgState) (a b : String)
    (hb : s.world.badPaths = []) (ha : (s.world.statF a).isSome = true) :
    (moveFile c s a b).1 = none := by
  unfold moveFile
  cases hcb : c.createBackups
  · simp only [Bool.false_eq_true, reduceIte]
    unfold renameStep
    cases hstat : s.world.statF a with
    | none => rw [hstat] at ha; simp at ha
    | some m =>
      dsimp only
      rw [if_neg]
      simp [hb]
  · simp only [reduceIte]
    have hw := copyFile_world s a (a ++ ".backup")
    unfold renameStep
    have hstat2 : (copyFile s a (a ++ ".backup")).2.world.statF a = s.world.statF a :=
      hw.2.2 a (fun h => string_append_backup_ne a h.symm)
    cases hstat : s.world.statF a with
    | none => rw [hstat] at ha; simp at ha
    | some m =>
      rw [hstat2.trans hstat]
      dsimp only
      rw [if_neg]
      rw [hw.1, hb]
      simp

theorem processThumbnail_orgdup (c : Config) (s : OrgState) (f : FileInfo) (t : String) :
    (processThumbnail c s f t).stats.filesOrganized = s.stats.filesOrganized ∧
    (processThumbnail c s f t).stats.duplicatesFound = s.stats.duplicatesFound := by
  rcases processThumbnail_stats_cases c s f t with h | ⟨e, h⟩ <;> rw [h] <;>
    simp [addError]

theorem processFileTail_orgdup (c : Config) (s : OrgState) (f : FileInfo) (t : String) :
    (processFileTail c s f t).stats.filesOrganized = s.stats.filesOrganized + 1 ∧
    (processFileTail c s f t).stats.duplicatesFound = s.stats.duplicatesFound := by
  unfold processFileTail
  dsimp only
  split
  · have h := processThumbnail_orgdup c s f t
    simp [addBytesProcessed, incrementFilesOrganized, h.1, h.2]
  · simp [addBytesProcessed, incrementFilesOrganized]

/-- C4 (amended): per file, from the same start state, with live
filesystem actions succeeding, the live pipeline and the simulation
produce the same FilesOrganized and the same DuplicatesFound counters.
(Over a whole input set the equality can fail, because a live run mutates
the target tree between files while the dry-run does not — see the
counterexample.) -/
theorem c4_dry_run_previews_live (c : Config) (s : OrgState) (f : FileInfo)
    (hdry : c.dryRun = false) (hbad : s.world.badPaths = [])
    (hsrc : (s.world.statF f.path).isSome = true) :
    (processFile c s f).stats.filesOrganized
      = (processDryRunFile c s f).stats.filesOrganized ∧
    (processFile c s f).stats.duplicatesFound
      = (processDryRunFile c s f).stats.duplicatesFound := by
  unfold processFile processDryRunFile
  dsimp only
  rcases hE : extractDate { s with stats := incrementFilesProcessed s.stats } f with ⟨r, s2⟩
  have hw2 : s2.world = s.world := by
    have h := extractDate_world { s with stats := incrementFilesProcessed s.stats } f
    rw [hE] at h
    exact h
  cases r with
  | error e =>
    simp [addError, incrementFilesWithoutDates]
  | ok date =>
    dsimp only [generateTargetPath]
    by_cases hex : fileExistsAtTarget s2.world f.path
        (goJoin (goJoin (getTargetDirectory c) (goFormat date c.dateFormat)) (goBase f.path))
        = true
    · simp only [hex, reduceIte]
      rcases hH : handleDuplicate c s2 f
          (goJoin (goJoin (getTargetDirectory c) (goFormat date c.dateFormat)) (goBase f.path))
        with ⟨err, s3⟩
      have hd := handleDuplicate_effects c s2 f
        (goJoin (goJoin (getTargetDirectory c) (goFormat date c.dateFormat)) (goBase f.path))
      rw [hH] at hd
      dsimp only at hd
      cases err with
      | some e =>
        simp [addError, incrementFilesWithErrors, incrementDuplicatesFound,
          hd.2.2.1, hd.2.2.2.1]
      | none =>
        simp [incrementDuplicatesFound, hd.2.2.1, hd.2.2.2.1]
    · simp only [Bool.not_eq_true] at hex
      simp only [hex, reduceIte]
      rcases hC : createDirectory s2
          (goDir (goJoin (goJoin (getTargetDirectory c) (goFormat date c.dateFormat))
            (goBase f.path)))
        with ⟨errC, s3⟩
      have hb2 : s2.world.badPaths = [] := by rw [hw2]; exact hbad
      have hCok := createDirectory_ok s2
        (goDir (goJoin (goJoin (getTargetDirectory c) (goFormat date c.dateFormat))
          (goBase f.path))) hb2
      rw [hC] at hCok
      dsimp only at hCok
      subst hCok
      have hcw := createDirectory_world s2
        (goDir (goJoin (goJoin (getTargetDirectory c) (goFormat date c.dateFormat))
          (goBase f.path)))
      rw [hC] at hcw
      dsimp only at hcw
      have hcd := createDirectory_stats_cases s2
        (goDir (goJoin (goJoin (getTargetDirectory c) (goFormat date c.dateFormat))
          (goBase f.path)))
      rw [hC] at hcd
      dsimp only at hcd
      have h3od : s3.stats.filesOrganized = s2.stats.filesOrganized ∧
          s3.stats.duplicatesFound = s2.stats.duplicatesFound := by
        rcases hcd with hcd | hcd <;> simp [hcd, incrementDirectoriesCreated]
      have hb3 : s3.world.badPaths = [] := by rw [hcw.2, hb2]
      have hsrc3 : (s3.world.statF f.path).isSome = true := by
        show (alookup s3.world.files f.path).isSome = true
        rw [hcw.1, hw2]
        exact hsrc
      simp only [hdry, reduceIte]
      cases hm : c.moveFiles
      · simp only [Bool.false_eq_true, reduceIte]
        rcases hMv : copyFile s3 f.path
            (goJoin (goJoin (getTargetDirectory c) (goFormat date c.dateFormat))
              (goBase f.path))
          with ⟨errM, s4⟩
        have hok := copyFile_ok s3 f.path
          (goJoin (goJoin (getTargetDirectory c) (goFormat date c.dateFormat))
            (goBase f.path)) hb3 hsrc3
        rw [hMv] at hok
        dsimp only at hok
        subst hok
        have hms := copyFile_stats s3 f.path
          (goJoin (goJoin (getTargetDirectory c) (goFormat date c.dateFormat))
            (goBase f.path))
        rw [hMv] at hms
        dsimp only at hms
        have htail := processFileTail_orgdup c
          { s4 with stats := incrementFilesCopied s4.stats } f
          (goJoin (goJoin (getTargetDirectory c) (goFormat date c.dateFormat))
            (goBase f.path))
        simp only [Bool.false_eq_true, if_false]
        refine ⟨?_, ?_⟩
        · rw [htail.1]
          simp [incrementFilesCopied, incrementFilesOrganized, hms, h3od.1]
        · rw [htail.2]
          simp [incrementFilesCopied, incrementFilesOrganized, hms, h3od.2]
      · simp only [reduceIte]
        rcases hMv : moveFile c s3 f.path
            (goJoin (goJoin (getTargetDirectory c) (goFormat date c.dateFormat))
              (goBase f.path))
          with ⟨errM, s4⟩
        have hok := moveFile_ok c s3 f.path
          (goJoin (goJoin (getTargetDirectory c) (goFormat date c.dateFormat))
            (goBase f.path)) hb3 hsrc3
        rw [hMv] at hok
        dsimp only at hok
        subst hok
        have hms := moveFile_stats c s3 f.path
          (goJoin (goJoin (getTargetDirectory c) (goFormat date c.dateFormat))
            (goBase f.path))
        rw [hMv] at hms
        dsimp only at hms
        have htail := processFileTail_orgdup c
          { s4 with stats := incrementFilesMoved s4.stats } f
          (goJoin (goJoin (getTargetDirectory c) (goFormat date c.dateFormat))
            (goBase f.path))
        simp only [Bool.false_eq_true, if_false]
        refine ⟨?_, ?_⟩
        · rw [htail.1]
          simp [incrementFilesMoved, incrementFilesOrganized, hms, h3od.1]
        · rw [htail.2]
          simp [incrementFilesMoved, incrementFilesOrganized, hms, h3od.2]

/-- C4 witness: the per-file equivalence applied at a concrete input. -/
theorem c4_witness :
    (processFile c4cfg ⟨c4world, emptyExtState, emptyStats⟩ c4f1).stats.filesOrganized
      = (processDryRunFile c4cfg ⟨c4world, emptyExtState, emptyStats⟩ c4f1).stats.filesOrganized ∧
    (processFile c4cfg ⟨c4world, emptyExtState, emptyStats⟩ c4f1).stats.duplicatesFound
      = (processDryRunFile c4cfg ⟨c4world, emptyExtState, emptyStats⟩ c4f1).stats.duplicatesFound :=
  c4_dry_run_previews_live c4cfg ⟨c4world, emptyExtState, emptyStats⟩ c4f1 rfl rfl (by decide)

/-- C4 counterexample: two files planned to the same destination, every
live filesystem action succeeding (no bad paths): the live run reports
organized = 1 and duplicatesFound = 1 while the dry-run over the same
inputs reports organized = 2 and duplicatesFound = 0 — run-level equality
of the two summaries fails. -/
theorem c4_counterexample :
    (processFiles c4cfg ⟨c4world, emptyExtState, emptyStats⟩ [c4f1, c4f2]).map
      (fun s1 => (s1.stats.filesOrganized, s1.stats.duplicatesFound)) = .ok (1, 1) ∧
    (dryRunProcess c4cfgDry ⟨c4world, emptyExtState, emptyStats⟩ [c4f1, c4f2]).map
      (fun s1 => (s1.stats.filesOrganized, s1.stats.duplicatesFound)) = .ok (2, 0) ∧
    c4world.badPaths = [] := ⟨rfl, rfl, rfl⟩

theorem string_append_left_cancel {a b c : String} (h : a ++ b = a ++ c) : b = c := by
  have hd := congrArg String.data h
  rw [String.data_append a b, String.data_append a c] at hd
  exact string_eq_of_data (List.append_cancel_left hd)

theorem string_append_right_cancel {a b c : String} (h : a ++ c = b ++ c) : a = b := by
  have hd := congrArg String.data h
  rw [String.data_append a c, String.data_append b c] at hd
  exact string_eq_of_data (List.append_cancel_right hd)

theorem inner_candidate_ne_empty (pre ext : String) (n : Nat) :
    (pre ++ "_" ++ natDec n ++ ext) ≠ "" := by
  intro hn
  have h2 := congrArg String.length hn
  simp only [String.length_append] at h2
  have h3 : 0 < (natDec n).length := List.length_pos.mpr (natDec_ne_nil n)
  have h4 : ("" : String).length = 0 := rfl
  have h5 : ("_" : String).length = 1 := rfl
  omega

theorem inner_candidate_inj (pre ext : String) {i j : Nat}
    (h : pre ++ "_" ++ natDec i ++ ext = pre ++ "_" ++ natDec j ++ ext) : i = j := by
  have h2 := string_append_right_cancel h
  have h3 := string_append_left_cancel h2
  exact natDec_injective h3

theorem uniqueCandidate_inj (dir pre ext : String) {i j : Nat}
    (h : uniqueCandidate dir pre ext i = uniqueCandidate dir pre ext j) : i = j := by
  unfold uniqueCandidate goJoin at h
  by_cases hdir : dir = ""
  · rw [if_pos hdir, if_pos hdir] at h
    exact inner_candidate_inj pre ext h
  · rw [if_neg hdir, if_neg (inner_candidate_ne_empty pre ext i),
      if_neg hdir, if_neg (inner_candidate_ne_empty pre ext j)] at h
    exact inner_candidate_inj pre ext (string_append_left_cancel h)

theorem probeUnique_spec (w : World) (dir pre ext : String) :
    ∀ fuel start,
      (∃ j, j < fuel ∧ w.statF (uniqueCandidate dir pre ext (start + j)) = none) →
      ∃ j, j < fuel ∧
        probeUnique w dir pre ext fuel start = uniqueCandidate dir pre ext (start + j) ∧
        w.statF (uniqueCandidate dir pre ext (start + j)) = none ∧
        ∀ i, i < j → (w.statF (uniqueCandidate dir pre ext (start + i))).isSome = true := by
  intro fuel
  induction fuel with
  | zero =>
    intro start h
    obtain ⟨j, hj, _⟩ := h
    omega
  | succ fuel ih =>
    intro start h
    cases hstat : (w.statF (uniqueCandidate dir pre ext start)).isSome
    · refine ⟨0, by omega, ?_, ?_, ?_⟩
      · simp only [probeUnique, hstat, Bool.false_eq_true, if_false]
        rw [Nat.add_zero]
      · rw [Nat.add_zero]
        cases hc : w.statF (uniqueCandidate dir pre ext start)
        · rfl
        · rw [hc] at hstat
          simp at hstat
      · intro i hi
        omega
    · obtain ⟨j, hj, hnone⟩ := h
      have hj0 : j ≠ 0 := by
        intro h0
        rw [h0, Nat.add_zero] at hnone
        rw [hnone] at hstat
        simp at hstat
      obtain ⟨j1, rfl⟩ : ∃ j1, j = j1 + 1 := ⟨j - 1, by omega⟩
      obtain ⟨j2, hj2, hprobe, hnone2, hall⟩ := ih (start + 1)
        ⟨j1, by omega, by rw [show start + 1 + j1 = start + (j1 + 1) by omega]; exact hnone⟩
      refine ⟨j2 + 1, by omega, ?_, ?_, ?_⟩
      · simp only [probeUnique, hstat, if_true, reduceIte]
        rw [hprobe]
        rw [show start + 1 + j2 = start + (j2 + 1) by omega]
      · rw [show start + (j2 + 1) = start + 1 + j2 by omega]
        exact hnone2
      · intro i hi
        cases i with
        | zero =>
          rw [Nat.add_zero]
          exact hstat
        | succ i1 =>
          rw [show start + (i1 + 1) = start + 1 + i1 by omega]
          exact hall i1 (by omega)

theorem exists_unused_candidate (w : World) (dir pre ext : String) :
    ∃ j, j < w.files.length + 1 ∧
      w.statF (uniqueCandidate dir pre ext (1 + j)) = none := by
  by_contra hcon
  push_neg at hcon
  have hmem : ∀ j ∈ Finset.range (w.files.length + 1),
      uniqueCandidate dir pre ext (1 + j) ∈ (w.files.map Prod.fst).toFinset := by
    intro j hj
    have h1 := hcon j (Finset.mem_range.mp hj)
    have hs : (alookup w.files (uniqueCandidate dir pre ext (1 + j))).isSome = true := by
      cases hc : alookup w.files (uniqueCandidate dir pre ext (1 + j)) with
      | none => exact absurd hc h1
      | some m => rfl
    exact List.mem_toFinset.mpr (alookup_isSome_mem hs)
  have hinj : Set.InjOn (fun j => uniqueCandidate dir pre ext (1 + j))
      (Finset.range (w.files.length + 1)) := by
    intro a _ b _ hab
    have := uniqueCandidate_inj dir pre ext hab
    omega
  have hcard := Finset.card_le_card_of_injOn _ hmem hinj
  rw [Finset.card_range] at hcard
  have h2 := List.toFinset_card_le (w.files.map Prod.fst)
  rw [List.length_map] at h2
  omega

/-- C5: for every filesystem state and base destination path, the rename
probe returns `name_N.ext` in the base path's directory for the least
`N ≥ 1` whose path does not already exist; the returned path equals no
existing path, and every smaller suffix was occupied (the probe ran
`_1`, `_2`, … strictly in increasing order). -/
theorem c5_generate_unique_filename (w : World) (basePath : String) :
    ∃ n : Nat, 1 ≤ n ∧
      generateUniqueFilename w basePath
        = uniqueCandidate (goDir basePath)
            (goTrimSuffix (goBase basePath) (goExt (goBase basePath)))
            (goExt (goBase basePath)) n ∧
      w.statF (uniqueCandidate (goDir basePath)
        (goTrimSuffix (goBase basePath) (goExt (goBase basePath)))
        (goExt (goBase basePath)) n) = none ∧
      generateUniqueFilename w basePath ∉ w.files.map Prod.fst ∧
      ∀ m, 1 ≤ m → m < n →
        (w.statF (uniqueCandidate (goDir basePath)
          (goTrimSuffix (goBase basePath) (goExt (goBase basePath)))
          (goExt (goBase basePath)) m)).isSome = true := by
  obtain ⟨j, hj, hprobe, hnone, hall⟩ := probeUnique_spec w (goDir basePath)
    (goTrimSuffix (goBase basePath) (goExt (goBase basePath)))
    (goExt (goBase basePath)) (w.files.length + 1) 1
    (exists_unused_candidate w (goDir basePath)
      (goTrimSuffix (goBase basePath) (goExt (goBase basePath)))
      (goExt (goBase basePath)))
  refine ⟨1 + j, by omega, hprobe, hnone, ?_, ?_⟩
  · rw [show generateUniqueFilename w basePath
        = uniqueCandidate (goDir basePath)
            (goTrimSuffix (goBase basePath) (goExt (goBase basePath)))
            (goExt (goBase basePath)) (1 + j) from hprobe]
    rw [← alookup_eq_none]
    exact hnone
  · intro m hm1 hmj
    obtain ⟨i, rfl⟩ : ∃ i, m = 1 + i := ⟨m - 1, by omega⟩
    exact hall i (by omega)

/-- C5 witness: the probe theorem applied at a concrete state in which
`a.jpg` and `a_1.jpg` already exist. -/
theorem c5_witness :
    ∃ n : Nat, 1 ≤ n ∧
      generateUniqueFilename c5world "t/a.jpg"
        = uniqueCandidate (goDir "t/a.jpg")
            (goTrimSuffix (goBase "t/a.jpg") (goExt (goBase "t/a.jpg")))
            (goExt (goBase "t/a.jpg")) n ∧
      c5world.statF (uniqueCandidate (goDir "t/a.jpg")
        (goTrimSuffix (goBase "t/a.jpg") (goExt (goBase "t/a.jpg")))
        (goExt (goBase "t/a.jpg")) n) = none ∧
      generateUniqueFilename c5world "t/a.jpg" ∉ c5world.files.map Prod.fst ∧
      ∀ m, 1 ≤ m → m < n →
        (c5world.statF (uniqueCandidate (goDir "t/a.jpg")
          (goTrimSuffix (goBase "t/a.jpg") (goExt (goBase "t/a.jpg")))
          (goExt (goBase "t/a.jpg")) m)).isSome = true :=
  c5_generate_unique_filename c5world "t/a.jpg"

end PhotoSorter
